import Mathlib

/-!
NativeDB: a JSON file backed key-value store (`src/lib/lib.js`).

A shallow embedding of the `NativeDB` class and a verification of its
persistence contract.

Modelling conventions.

* JavaScript data values are the JSON data values plus `undefined`.  An object
  is the list of its own properties in the order the object lists them (array
  indices first, in ascending order, then the other keys in the order they
  were created), together with its prototype: `Object.prototype` for a plain
  object, or the object or `null` that an assignment to `__proto__` has set.
  A property read walks the prototype chain, so that it can yield a function
  of a prototype object of the platform; such functions are results of reads
  only, never stored values.  Numbers are the integers, strings are sequences
  of code points, a hole of an array reads as `undefined`.
* A thrown value is an error object with `name`, `message` and an optional
  `code`, which is all the source ever reads of it.
* The file backend is the part of `fs` the class calls: `statSync`,
  `accessSync`, `readFileSync`, `writeFileSync` and `fs.promises.writeFile`,
  over an explicit `World`.  A detached write is recorded as issued; when and
  how it reaches the file is not described.
* A method takes the instance and the world and returns its completion (normal
  or thrown) together with the instance and world it leaves behind, so that a
  mutation made before a throw stays visible.
-/

set_option autoImplicit false

/-! Errors -/

/-- A thrown JavaScript error object. -/
structure JSError where
  name : String
  message : String
  code : Option String
deriving DecidableEq, Repr

/-- The object built by `new Error(message)`. -/
def newError (message : String) : JSError :=
  ⟨"Error", message, none⟩

/-- A `TypeError` raised by the runtime. -/
def typeError (message : String) : JSError :=
  ⟨"TypeError", message, none⟩

/-- A `RangeError` raised by the runtime. -/
def rangeError (message : String) : JSError :=
  ⟨"RangeError", message, none⟩

/-- The string an error interpolates to in a template literal
(`Error.prototype.toString`). -/
def JSError.toString (e : JSError) : String :=
  if e.name = "" then e.message
  else if e.message = "" then e.name
  else e.name ++ ": " ++ e.message

/-- An error raised by the file backend: it carries the system error code. -/
def fsError (code description syscall path : String) : JSError :=
  ⟨"Error", code ++ ": " ++ description ++ ", " ++ syscall ++ " \x27" ++ path ++ "\x27", some code⟩

/-! Values -/

/-- JavaScript data values: JSON data and `undefined`.  An array carries its
elements and the named properties assigned to it.  `obj` is an ordinary object
whose prototype is `Object.prototype`; `reproto proto target` is the object or
array `target` after its prototype has been set to `proto`, an object or
`null`. -/
inductive JSValue where
  | undefined
  | null
  | bool (b : Bool)
  | num (n : Int)
  | str (s : String)
  | arr (elems : List JSValue) (props : List (String × JSValue))
  | obj (props : List (String × JSValue))
  | reproto (proto : JSValue) (target : JSValue)
deriving Repr

/-- The own properties of an object: keys with their values, in the order the
object lists them. -/
abbrev Props := List (String × JSValue)

/-- The value of a decimal digit. -/
def digitValue (c : Char) : Option Nat :=
  if c.isDigit then some (c.toNat - 48) else none

/-- Reads a list of decimal digits, most significant first. -/
def readDigits (acc : Nat) : List Char → Option Nat
  | [] => some acc
  | c :: cs =>
    match digitValue c with
    | none => none
    | some d => readDigits (acc * 10 + d) cs

/-- A canonical decimal numeral: digits only, no leading zero except `0`
itself. -/
def canonicalNumeral (k : String) : Option Nat :=
  match k.data with
  | [] => none
  | [c] => digitValue c
  | c :: cs => if c = '0' then none else readDigits 0 (c :: cs)

/-- An array index is a canonical numeral below `2^32 - 1`. -/
def arrayIndex (k : String) : Option Nat :=
  match canonicalNumeral k with
  | some n => if n < 4294967295 then some n else none
  | none => none

/-- Whether a key is among the entries. -/
def hasKey {α : Type} (k : String) : List (String × α) → Bool
  | [] => false
  | (k', _) :: rest => if k' = k then true else hasKey k rest

/-- Overwrites, in place, the value of a key that is among the entries. -/
def replaceEntry {α : Type} (k : String) (v : α) : List (String × α) → List (String × α)
  | [] => []
  | (k', v') :: rest => if k' = k then (k, v) :: rest else (k', v') :: replaceEntry k v rest

/-- Adds a key that is not among the entries, where an object lists it: an
array index goes before the first key that is no array index or is a larger
one, so that indices stay in ascending order ahead of the other keys; any
other key goes to the end. -/
def insertEntry {α : Type} (k : String) (v : α) : List (String × α) → List (String × α)
  | [] => [(k, v)]
  | (k', v') :: rest =>
    match arrayIndex k, arrayIndex k' with
    | some i, some j =>
      if i < j then (k, v) :: (k', v') :: rest else (k', v') :: insertEntry k v rest
    | some _, none => (k, v) :: (k', v') :: rest
    | none, _ => (k', v') :: insertEntry k v rest

/-- Creates or overwrites an own data property. -/
def assignEntry {α : Type} (k : String) (v : α) (es : List (String × α)) : List (String × α) :=
  if hasKey k es then replaceEntry k v es else insertEntry k v es

/-- The value of an own property, if the key is present. -/
def Props.lookup (k : String) : Props → Option JSValue
  | [] => none
  | (k', v) :: rest => if k' = k then some v else Props.lookup k rest

/-- Own property assignment on the properties of an object: overwrite in place,
or add the key where the object lists it. -/
def Props.assign (k : String) (v : JSValue) (ps : Props) : Props :=
  assignEntry k v ps

/-- Property deletion on a plain object. -/
def Props.erase (k : String) : Props → Props
  | [] => []
  | (k', v') :: rest => if k' = k then Props.erase k rest else (k', v') :: Props.erase k rest

/-- The keys of a property list, in order. -/
def Props.keys (ps : Props) : List String :=
  ps.map Prod.fst

/-- The prototype objects of the platform that the values of the model inherit
from. -/
inductive Builtin where
  | object
  | array
  | string
  | number
  | boolean
deriving DecidableEq, Repr

/-- The names of the function-valued properties a prototype object of the
platform has of its own (ECMAScript 2024 with its Annex B; `length` and the
accessor `__proto__` apart). -/
def Builtin.members : Builtin → List String
  | .object => ["constructor", "__defineGetter__", "__defineSetter__", "hasOwnProperty",
      "__lookupGetter__", "__lookupSetter__", "isPrototypeOf", "propertyIsEnumerable",
      "toString", "valueOf", "toLocaleString"]
  | .array => ["at", "concat", "constructor", "copyWithin", "entries", "every", "fill",
      "filter", "find", "findIndex", "findLast", "findLastIndex", "flat", "flatMap", "forEach",
      "includes", "indexOf", "join", "keys", "lastIndexOf", "map", "pop", "push", "reduce",
      "reduceRight", "reverse", "shift", "slice", "some", "sort", "splice", "toLocaleString",
      "toReversed", "toSorted", "toSpliced", "toString", "unshift", "values", "with"]
  | .string => ["anchor", "at", "big", "blink", "bold", "charAt", "charCodeAt", "codePointAt",
      "concat", "constructor", "endsWith", "fixed", "fontcolor", "fontsize", "includes",
      "indexOf", "isWellFormed", "italics", "lastIndexOf", "link", "localeCompare", "match",
      "matchAll", "normalize", "padEnd", "padStart", "repeat", "replace", "replaceAll",
      "search", "slice", "small", "split", "startsWith", "strike", "sub", "substr",
      "substring", "sup", "toLocaleLowerCase", "toLocaleUpperCase", "toLowerCase", "toString",
      "toUpperCase", "toWellFormed", "trim", "trimEnd", "trimLeft", "trimRight", "trimStart",
      "valueOf"]
  | .number => ["constructor", "toExponential", "toFixed", "toLocaleString", "toPrecision",
      "toString", "valueOf"]
  | .boolean => ["constructor", "toString", "valueOf"]

/-- What a property read yields: a data value, a function inherited from a
prototype object of the platform, or such a prototype object itself. -/
inductive Read where
  | data (v : JSValue)
  | member (b : Builtin) (name : String)
  | prototype (b : Builtin)
deriving Repr

/-- Writes element `i` of an array, padding with `undefined` when the index lies
beyond the end. -/
def writeElem (es : List JSValue) (i : Nat) (v : JSValue) : List JSValue :=
  if i < es.length then es.set i v
  else es ++ List.replicate (i - es.length) JSValue.undefined ++ [v]

/-- The number a primitive converts to when it is a valid array length
(`ToNumber` on the primitives; a string counts when it is a canonical
numeral or empty). -/
def toArrayLength : JSValue → Option Nat
  | .null => some 0
  | .bool b => some (if b then 1 else 0)
  | .num n => if 0 ≤ n ∧ n < 4294967296 then some n.toNat else none
  | .str s => if s = "" then some 0 else
      match canonicalNumeral s with
      | some n => if n < 4294967296 then some n else none
      | none => none
  | _ => none

/-- Resizes an element list to length `n`. -/
def resize (es : List JSValue) (n : Nat) : List JSValue :=
  es.take n ++ List.replicate (n - es.length) JSValue.undefined

/-- The value of an own property of a value, if it has the property. -/
def ownProp : JSValue → String → Option JSValue
  | .obj ps, k => Props.lookup k ps
  | .arr es ps, k =>
    if k = "length" then some (.num es.length)
    else match arrayIndex k with
      | some i => if i < es.length then some (es.getD i .undefined) else none
      | none => Props.lookup k ps
  | .str s, k =>
    if k = "length" then some (.num s.length)
    else match arrayIndex k with
      | some i => if i < s.length then some (.str (String.singleton (s.data.getD i ' '))) else none
      | none => none
  | .reproto _ t, k => ownProp t k
  | _, _ => none

/-- A read that has reached the prototype object `b` of the platform, for a
receiver whose prototype is `recv`: a function of `b`, one of
`Object.prototype`, the prototype of the receiver for the accessor
`__proto__`, or `undefined`. -/
def fromBuiltin (recv : Read) (b : Builtin) (k : String) : Read :=
  if k ∈ b.members then .member b k
  else if k ∈ Builtin.object.members then .member .object k
  else if k = "__proto__" then recv
  else .data .undefined

/-- A read that has reached the object `p` on the prototype chain of a receiver
whose prototype is `recv`. -/
def fromValue (recv : Read) : JSValue → String → Read
  | .obj ps, k =>
    match Props.lookup k ps with
    | some x => .data x
    | none => fromBuiltin recv .object k
  | .arr es ps, k =>
    match ownProp (.arr es ps) k with
    | some x => .data x
    | none => fromBuiltin recv .array k
  | .reproto p t, k =>
    match ownProp t k with
    | some x => .data x
    | none => fromValue recv p k
  | _, _ => .data .undefined

/-- A read of a property the value does not have of its own, through its
prototype chain. -/
def inherited (o : JSValue) (k : String) : Read :=
  match o with
  | .obj _ => fromBuiltin (.prototype .object) .object k
  | .arr _ _ => fromBuiltin (.prototype .array) .array k
  | .str _ => fromBuiltin (.prototype .string) .string k
  | .num _ => fromBuiltin (.prototype .number) .number k
  | .bool _ => fromBuiltin (.prototype .boolean) .boolean k
  | .reproto p _ => fromValue (.data p) p k
  | _ => .data .undefined

/-- The expression `o[k]`. -/
def getProp (o : JSValue) (k : String) : Except JSError Read :=
  match o with
  | .undefined => .error (typeError ("Cannot read properties of undefined (reading \x27" ++ k ++ "\x27)"))
  | .null => .error (typeError ("Cannot read properties of null (reading \x27" ++ k ++ "\x27)"))
  | _ =>
    match ownProp o k with
    | some x => .ok (.data x)
    | none => .ok (inherited o k)

/-- Whether a value is an object. -/
def JSValue.isObject : JSValue → Bool
  | .obj _ => true
  | .arr _ _ => true
  | .reproto _ _ => true
  | _ => false

/-- Whether a value is `null`. -/
def JSValue.isNull : JSValue → Bool
  | .null => true
  | _ => false

/-- Whether a walk up the prototype chain that starts at the object `p` reaches
the accessor `__proto__` of `Object.prototype`, with no data property of that
name on the way. -/
def JSValue.reachesAccessor : JSValue → Bool
  | .obj ps => (Props.lookup "__proto__" ps).isNone
  | .arr _ ps => (Props.lookup "__proto__" ps).isNone
  | .reproto p t => (ownProp t "__proto__").isNone && JSValue.reachesAccessor p
  | _ => false

/-- Whether the assignment `o[k] = v` on an object calls the setter of the
accessor `__proto__`: the key is `__proto__`, the object has no own property
of that name and the accessor is reached through its prototype chain. -/
def callsProtoSetter (o : JSValue) (k : String) : Bool :=
  k = "__proto__" && (ownProp o k).isNone &&
    (match o with
     | .obj _ => true
     | .arr _ _ => true
     | .reproto p _ => p.reachesAccessor
     | _ => false)

/-- The object or array itself, without a prototype set on it. -/
def ownPart : JSValue → JSValue
  | .reproto _ t => t
  | o => o

/-- The setter of the accessor `__proto__` on the object `o`: an object or
`null` becomes the prototype of `o`, any other value is ignored. -/
def setPrototype (o v : JSValue) : JSValue :=
  if v.isObject || v.isNull then .reproto v (ownPart o) else o

/-- Creates or overwrites an own property of a plain object or of an array. -/
def ownWrite (t : JSValue) (k : String) (v : JSValue) : Except JSError JSValue :=
  match t with
  | .obj ps => .ok (.obj (Props.assign k v ps))
  | .arr es ps =>
    if k = "length" then
      match toArrayLength v with
      | some n => .ok (.arr (resize es n) ps)
      | none => .error (rangeError "Invalid array length")
    else match arrayIndex k with
      | some i => .ok (.arr (writeElem es i v) ps)
      | none => .ok (.arr es (Props.assign k v ps))
  | _ => .error (typeError ("Cannot create property \x27" ++ k ++ "\x27"))

/-- The table the statement `storage[key] = value` leaves when the table is the
plain object with the properties `ps`: the key is assigned, except that the
key `__proto__`, when the object has no own property of that name, sets the
prototype instead. -/
def Props.set (ps : Props) (key : String) (value : JSValue) : JSValue :=
  if callsProtoSetter (.obj ps) key then setPrototype (.obj ps) value
  else .obj (Props.assign key value ps)

/-- The statement `o[k] = v` in strict mode (class bodies are strict): the
updated `o`, or the error thrown. -/
def setProp (o : JSValue) (k : String) (v : JSValue) : Except JSError JSValue :=
  match o with
  | .undefined => .error (typeError ("Cannot set properties of undefined (setting \x27" ++ k ++ "\x27)"))
  | .null => .error (typeError ("Cannot set properties of null (setting \x27" ++ k ++ "\x27)"))
  | .bool b =>
    if k = "__proto__" then .ok (.bool b)
    else .error (typeError ("Cannot create property \x27" ++ k ++ "\x27 on boolean"))
  | .num n =>
    if k = "__proto__" then .ok (.num n)
    else .error (typeError ("Cannot create property \x27" ++ k ++ "\x27 on number"))
  | .str s =>
    if k = "__proto__" then .ok (.str s)
    else .error (typeError ("Cannot create property \x27" ++ k ++ "\x27 on string"))
  | .arr es ps =>
    if callsProtoSetter (.arr es ps) k then .ok (setPrototype (.arr es ps) v)
    else ownWrite (.arr es ps) k v
  | .obj ps => .ok (Props.set ps k v)
  | .reproto p t =>
    if callsProtoSetter (.reproto p t) k then .ok (setPrototype (.reproto p t) v)
    else
      match ownWrite t k v with
      | .error e => .error e
      | .ok t1 => .ok (.reproto p t1)

/-- The expression `delete o[k]` in strict mode: the updated `o`, or the error
thrown.  Only an own property is deleted. -/
def deleteProp : JSValue → String → Except JSError JSValue
  | .undefined, _ => .error (typeError ("Cannot convert undefined or null to object"))
  | .null, _ => .error (typeError ("Cannot convert undefined or null to object"))
  | .bool b, _ => .ok (.bool b)
  | .num n, _ => .ok (.num n)
  | .str s, k =>
    if k = "length" then .error (typeError "Cannot delete property \x27length\x27 of string")
    else match arrayIndex k with
      | some i =>
        if i < s.length then .error (typeError ("Cannot delete property \x27" ++ k ++ "\x27 of string"))
        else .ok (.str s)
      | none => .ok (.str s)
  | .arr es ps, k =>
    if k = "length" then .error (typeError "Cannot delete property \x27length\x27 of array")
    else match arrayIndex k with
      | some i => if i < es.length then .ok (.arr (es.set i .undefined) ps) else .ok (.arr es ps)
      | none => .ok (.arr es (Props.erase k ps))
  | .obj ps, k => .ok (.obj (Props.erase k ps))
  | .reproto p t, k =>
    match deleteProp t k with
    | .error e => .error e
    | .ok t1 => .ok (.reproto p t1)

/-- A value is a mapping when it is a plain object, whatever its prototype. -/
def JSValue.isMapping : JSValue → Bool
  | .obj _ => true
  | .reproto _ (.obj _) => true
  | _ => false

/-- The object `get(...keys)` builds: its prototype, `Object.prototype` unless
an assignment has set it, and its own properties. -/
structure Picked where
  proto : Read
  entries : List (String × Read)

/-- Whether what was read is an object or `null`. -/
def Read.isObjectOrNull : Read → Bool
  | .data v => v.isObject || v.isNull
  | .member _ _ => true
  | .prototype _ => true

/-- Whether a walk up the prototype chain from what was read reaches the
accessor `__proto__`. -/
def Read.reachesAccessor : Read → Bool
  | .data v => v.reachesAccessor
  | .member _ _ => true
  | .prototype _ => true

/-- The statement `acc[key] = value` on the object `get` builds. -/
def Picked.put (acc : Picked) (key : String) (value : Read) : Picked :=
  if key = "__proto__" && !(hasKey key acc.entries) && acc.proto.reachesAccessor then
    if value.isObjectOrNull then { acc with proto := value } else acc
  else { acc with entries := assignEntry key value acc.entries }

/-- What `get` returns: the storage itself, or the object it has built. -/
inductive GetResult where
  | storage (v : JSValue)
  | picked (acc : Picked)

/-! The file backend -/

/-- What the file backend holds at a path: nothing, a regular file with its
content and the permissions of the process on it, or a path whose probe fails
with a system error. -/
inductive Node where
  | missing
  | file (content : String) (readable writable : Bool)
  | broken (err : JSError)
deriving DecidableEq, Repr

/-- The environment of the store: the file system, the condition under which a
write to a path fails whatever the node is (full disk, missing parent
directory), the detached writes issued, in issue order, and the lines written
to the error console. -/
structure World where
  node : String → Node
  writeFault : String → Option JSError
  pending : List (String × String)
  console : List String

/-- The call `fs.statSync(path)`: the size of the file in bytes. -/
def statSync (w : World) (path : String) : Except JSError Nat :=
  match w.node path with
  | .missing => .error (fsError "ENOENT" "no such file or directory" "stat" path)
  | .file content _ _ => .ok content.utf8ByteSize
  | .broken e => .error e

/-- The call `fs.accessSync(path, fs.constants.R_OK | fs.constants.W_OK)`. -/
def accessSync (w : World) (path : String) : Except JSError Unit :=
  match w.node path with
  | .missing => .error (fsError "ENOENT" "no such file or directory" "access" path)
  | .file _ r wr =>
    if r && wr then .ok () else .error (fsError "EACCES" "permission denied" "access" path)
  | .broken e => .error e

/-- The call `fs.readFileSync(path)`. -/
def readFileSync (w : World) (path : String) : Except JSError String :=
  match w.node path with
  | .missing => .error (fsError "ENOENT" "no such file or directory" "open" path)
  | .file content r _ =>
    if r then .ok content else .error (fsError "EACCES" "permission denied" "open" path)
  | .broken e => .error e

/-- The world in which the node at `path` is `n` and every other path is as
before. -/
def World.put (w : World) (path : String) (n : Node) : World :=
  { w with node := fun p => if p = path then n else w.node p }

/-- The call `fs.writeFileSync(path, data)`: creates the file or replaces its
whole content. -/
def writeFileSync (w : World) (path data : String) : Except JSError Unit × World :=
  match w.writeFault path with
  | some e => (.error e, w)
  | none =>
    match w.node path with
    | .missing => (.ok (), w.put path (.file data true true))
    | .file _ r wr =>
      if wr then (.ok (), w.put path (.file data r wr))
      else (.error (fsError "EACCES" "permission denied" "open" path), w)
    | .broken e => (.error e, w)

/-- The call `fs.promises.writeFile(path, data)` whose promise is dropped: the
write is issued and the caller goes on. -/
def promisesWriteFile (w : World) (path data : String) : World :=
  { w with pending := w.pending ++ [(path, data)] }

/-! Options -/

/-- The options of a store (`this.options`). -/
structure Options where
  asyncWrite : Bool
  syncOnWrite : Bool
  jsonSpaces : Nat
  stringify : JSValue → Nat → Except JSError String
  parse : String → Except JSError JSValue

/-- The `options` argument of the constructor: every field may be left out. -/
structure OptionsArg where
  asyncWrite : Option Bool
  syncOnWrite : Option Bool
  jsonSpaces : Option Nat
  stringify : Option (JSValue → Nat → Except JSError String)
  parse : Option (String → Except JSError JSValue)

/-- The global `JSON` object of the platform, called as
`JSON.stringify(value, null, spaces)` and `JSON.parse(text)`. -/
structure JSONGlobal where
  stringify : JSValue → Nat → Except JSError String
  parse : String → Except JSError JSValue

/-- The constant `defaultOptions`. -/
def defaultOptions (JSON : JSONGlobal) : Options :=
  ⟨false, true, 4, JSON.stringify, JSON.parse⟩

/-- The object spread of the defaults and the supplied options: a supplied
field wins. -/
def spread (d : Options) (o : OptionsArg) : Options :=
  ⟨o.asyncWrite.getD d.asyncWrite, o.syncOnWrite.getD d.syncOnWrite,
   o.jsonSpaces.getD d.jsonSpaces, o.stringify.getD d.stringify, o.parse.getD d.parse⟩

/-- The value given to `this.options`: the supplied options spread over
`defaultOptions`, or `defaultOptions` itself when no options are supplied. -/
def resolveOptions (JSON : JSONGlobal) (options : Option OptionsArg) : Options :=
  match options with
  | some o => spread (defaultOptions JSON) o
  | none => defaultOptions JSON

/-! The class -/

/-- An instance of the class `NativeDB`. -/
structure NativeDB where
  filePath : String
  options : Options
  storage : JSValue

/-- The completion of a method together with the instance and the world it
leaves. -/
abbrev Outcome (α : Type) := Except JSError α × NativeDB × World

/-- The method `validateJSON(fileContent)`. -/
def NativeDB.validateJSON (db : NativeDB) (fileContent : String) (w : World) :
    Except JSError Bool × World :=
  match db.options.parse fileContent with
  | .ok _ => (.ok true, w)
  | .error e =>
    (.error e, { w with console := w.console ++
      ["Given filePath is not empty and its content is not valid JSON."] })

/-- The `try` block of the constructor: probe the path and load its content. -/
def NativeDB.load (db : NativeDB) (w : World) : Outcome Unit :=
  match statSync w db.filePath with
  | .error e => (.error e, db, w)
  | .ok size =>
    match accessSync w db.filePath with
    | .error e => (.error e, db, w)
    | .ok () =>
      if size > 0 then
        match readFileSync w db.filePath with
        | .error e => (.error e, db, w)
        | .ok data =>
          match db.validateJSON data w with
          | (.error e, w1) => (.error e, db, w1)
          | (.ok _, w1) =>
            match db.options.parse data with
            | .error e => (.error e, db, w1)
            | .ok v => (.ok (), { db with storage := v }, w1)
      else (.ok (), db, w)

/-- The constructor `new NativeDB(filePath, options)`; an argument left out is
`none`. -/
def NativeDB.constructor (JSON : JSONGlobal) (filePath : Option String)
    (options : Option OptionsArg) (w : World) : Except JSError NativeDB × World :=
  match filePath with
  | none => (.error (newError "Missing file path argument."), w)
  | some path =>
    if path.length = 0 then (.error (newError "Missing file path argument."), w)
    else
      let this : NativeDB := ⟨path, resolveOptions JSON options, .obj []⟩
      match this.load w with
      | (.ok (), db, w1) => (.ok db, w1)
      | (.error error, db, w1) =>
        if error.code = some "ENOENT" then (.ok db, w1)
        else if error.code = some "EACCES" then
          (.error (newError ("Cannot access path \"" ++ path ++ "\".")), w1)
        else
          (.error (newError ("Error while checking for existence of path \"" ++ path ++ "\": "
            ++ error.toString)), w1)

/-- The method `sync()`. -/
def NativeDB.sync (db : NativeDB) (w : World) : Outcome Unit :=
  if db.options.asyncWrite then
    match db.options.stringify db.storage db.options.jsonSpaces with
    | .error e => (.error e, db, w)
    | .ok data => (.ok (), db, promisesWriteFile w db.filePath data)
  else
    match db.options.stringify db.storage db.options.jsonSpaces with
    | .error e => (.error e, db, w)
    | .ok data =>
      match writeFileSync w db.filePath data with
      | (.error e, w1) => (.error e, db, w1)
      | (.ok (), w1) => (.ok (), db, w1)

/-- The method `set(key, value)`. -/
def NativeDB.set (db : NativeDB) (key : String) (value : JSValue) (w : World) : Outcome Unit :=
  match setProp db.storage key value with
  | .error e => (.error e, db, w)
  | .ok s =>
    let db1 : NativeDB := { db with storage := s }
    if db1.options.syncOnWrite then db1.sync w else (.ok (), db1, w)

/-- The method `get(...keys)`. -/
def NativeDB.get (db : NativeDB) (keys : List String) : Except JSError GetResult :=
  if keys.length = 0 then .ok (.storage db.storage)
  else
    match keys.foldlM (fun (acc : Picked) key =>
      match getProp db.storage key with
      | Except.error e => Except.error e
      | Except.ok value => Except.ok (acc.put key value)) (Picked.mk (.prototype .object) []) with
    | .error e => .error e
    | .ok acc => .ok (.picked acc)

/-- The loop `keys.forEach((key) => delete storage[key])`: the deletions made
before a throw stay. -/
def deleteEach (storage : JSValue) : List String → Except JSError Unit × JSValue
  | [] => (.ok (), storage)
  | key :: keys =>
    match deleteProp storage key with
    | .error e => (.error e, storage)
    | .ok s => deleteEach s keys

/-- The method `remove(...keys)`. -/
def NativeDB.remove (db : NativeDB) (keys : List String) (w : World) : Outcome Unit :=
  match deleteEach db.storage keys with
  | (.error e, s) => (.error e, { db with storage := s }, w)
  | (.ok (), s) =>
    let db1 : NativeDB := { db with storage := s }
    if db1.options.syncOnWrite then db1.sync w else (.ok (), db1, w)

/-- The method `clear()`. -/
def NativeDB.clear (db : NativeDB) (w : World) : Outcome Unit :=
  let db1 : NativeDB := { db with storage := .obj [] }
  if db1.options.syncOnWrite then db1.sync w else (.ok (), db1, w)

/-! Notions used to state the contract -/

/-- The content of the regular file at `path`, if there is one. -/
def World.content (w : World) (path : String) : Option String :=
  match w.node path with
  | .file content _ _ => some content
  | _ => none

/-- The error a completion throws, if it throws. -/
def thrown {α : Type} : Except JSError α → Option JSError
  | .error e => some e
  | .ok _ => none

/-- The encoding of the current table with the configured indentation:
`stringify(storage, null, jsonSpaces)`. -/
def NativeDB.encoded (db : NativeDB) : Except JSError String :=
  db.options.stringify db.storage db.options.jsonSpaces

/-- The table left by `remove(...keys)` on a mapping. -/
def Props.eraseAll (ps : Props) (keys : List String) : Props :=
  keys.foldl (fun acc k => Props.erase k acc) ps

/-- The calls `set(k, v)` for each entry of a table, in order, stopping at the
first throw. -/
def NativeDB.setEach (db : NativeDB) (w : World) : Props → Outcome Unit
  | [] => (.ok (), db, w)
  | (k, v) :: rest =>
    match db.set k v w with
    | (.error e, db1, w1) => (.error e, db1, w1)
    | (.ok (), db1, w1) => NativeDB.setEach db1 w1 rest

/-- The round trip: open, set every entry of the table, sync, open again. -/
def roundTrip (JSON : JSONGlobal) (path : String) (options : Option OptionsArg) (table : Props)
    (w : World) : Except JSError NativeDB × World :=
  match NativeDB.constructor JSON (some path) options w with
  | (.error e, w1) => (.error e, w1)
  | (.ok db, w1) =>
    match db.setEach w1 table with
    | (.error e, _, w2) => (.error e, w2)
    | (.ok (), db2, w2) =>
      match db2.sync w2 with
      | (.error e, _, w3) => (.error e, w3)
      | (.ok (), _, w3) => NativeDB.constructor JSON (some path) options w3

/-! Concrete environments for the examples -/

/-- The indentation `JSON.stringify` uses for a numeric `space` argument. -/
def jsonIndent (n : Nat) : String :=
  String.mk (List.replicate (min n 10) ' ')

/-- The text `JSON.stringify` gives the object with the single entry `a: 1`. -/
def encodeA1 (n : Nat) : String :=
  if min n 10 = 0 then "\x7b\"a\":1\x7d"
  else "\x7b\n" ++ jsonIndent n ++ "\"a\": 1\n\x7d"

/-- A codec for the examples, encoder: it follows `JSON.stringify` on the
empty object, on the object with the single entry `a: 1` and on `null`, and
rejects every other value. -/
def demoStringify : JSValue → Nat → Except JSError String
  | .obj [], _ => .ok "\x7b\x7d"
  | .obj [("a", .num 1)], n => .ok (encodeA1 n)
  | .null, _ => .ok "null"
  | _, _ => .error (typeError "Converting circular structure to JSON")

/-- A codec for the examples, decoder: it follows `JSON.parse` on the texts the
encoder produces and rejects every other text with a `SyntaxError`. -/
def demoParse (text : String) : Except JSError JSValue :=
  if text = "null" then .ok .null
  else if text = "\x7b\x7d" then .ok (.obj [])
  else if (List.range 11).any (fun n => text = encodeA1 n) then .ok (.obj [("a", .num 1)])
  else .error ⟨"SyntaxError", "Unexpected token in JSON at position 0", none⟩

/-- The example codec as the `JSON` global. -/
def demoJSON : JSONGlobal :=
  ⟨demoStringify, demoParse⟩

/-- A world in which no path exists and every write is accepted. -/
def emptyWorld : World :=
  ⟨fun _ => .missing, fun _ => none, [], []⟩

/-- A world in which no path exists and every write fails, as under a
directory that does not exist. -/
def faultyWorld : World :=
  ⟨fun _ => .missing,
   fun path => some (fsError "ENOENT" "no such file or directory" "open" path), [], []⟩

/-- A decoder that rejects every text with the given error. -/
def failingParse (e : JSError) : String → Except JSError JSValue :=
  fun _ => .error e

/-- The options argument that only replaces the decoder. -/
def withParse (parse : String → Except JSError JSValue) : OptionsArg :=
  ⟨none, none, none, none, some parse⟩

/-- A world with one readable and writable file. -/
def worldWith (path content : String) : World :=
  emptyWorld.put path (.file content true true)

/-- The options argument that only switches `syncOnWrite` off. -/
def manualSync : OptionsArg :=
  ⟨none, some false, none, none, none⟩

/-- A store on `db.json` with the given table and options. -/
def storeOf (storage : JSValue) (asyncWrite syncOnWrite : Bool) (jsonSpaces : Nat) : NativeDB :=
  ⟨"db.json", ⟨asyncWrite, syncOnWrite, jsonSpaces, demoStringify, demoParse⟩, storage⟩

/-- An encoder whose output is always the empty text. -/
def blankStringify : JSValue → Nat → Except JSError String :=
  fun _ _ => .ok ""

/-- A decoder that answers every text with the same table. -/
def constParse (table : Props) : String → Except JSError JSValue :=
  fun _ => .ok (.obj table)

/-- The options argument that replaces the codec by `blankStringify` and
`constParse table`. -/
def blankCodec (table : Props) : OptionsArg :=
  ⟨none, none, none, some blankStringify, some (constParse table)⟩

/-- The file backend accepts a synchronous write at `path`: no fault is set,
and the path is free or holds a file the process may read and write. -/
def World.accepts (w : World) (path : String) : Bool :=
  match w.writeFault path, w.node path with
  | none, .missing => true
  | none, .file _ true true => true
  | _, _ => false

/-- The calls `clear(); clear()`. -/
def NativeDB.clearTwice (db : NativeDB) (w : World) : Outcome Unit :=
  (db.clear w).2.1.clear (db.clear w).2.2

/-- The properties of the plain object that starts empty and is assigned the
entries in turn: the same keys and values, in the order an object lists
them. -/
def Props.ofEntries (entries : Props) : Props :=
  entries.foldl (fun acc p => Props.assign p.1 p.2 acc) []

/-! Lemmas on property lists -/

theorem Props.hasKey_eq (k : String) (ps : Props) :
    hasKey k ps = (Props.lookup k ps).isSome := by
  induction ps with
  | nil => rfl
  | cons p rest ih =>
    obtain ⟨k1, v1⟩ := p
    by_cases h : k1 = k
    · simp [hasKey, Props.lookup, h]
    · simp [hasKey, Props.lookup, h, ih]

theorem Props.hasKey_iff_mem (k : String) (ps : Props) :
    hasKey k ps = true ↔ k ∈ Props.keys ps := by
  induction ps with
  | nil => simp [hasKey, Props.keys]
  | cons p rest ih =>
    obtain ⟨k1, v1⟩ := p
    simp only [Props.keys] at ih
    by_cases h : k1 = k
    · simp [hasKey, Props.keys, h]
    · have h2 : ¬ k = k1 := fun hc => h hc.symm
      simp [hasKey, Props.keys, h, h2, ih]

theorem Props.lookup_replaceEntry_self (k : String) (v : JSValue) (ps : Props)
    (h : hasKey k ps = true) : Props.lookup k (replaceEntry k v ps) = some v := by
  induction ps with
  | nil => simp [hasKey] at h
  | cons p rest ih =>
    obtain ⟨k1, v1⟩ := p
    by_cases h1 : k1 = k
    · simp [replaceEntry, Props.lookup, h1]
    · simp only [hasKey, h1, if_false] at h
      simp [replaceEntry, Props.lookup, h1, ih h]

theorem Props.lookup_replaceEntry_other (k k1 : String) (v : JSValue) (ps : Props)
    (h : k1 ≠ k) : Props.lookup k1 (replaceEntry k v ps) = Props.lookup k1 ps := by
  induction ps with
  | nil => rfl
  | cons p rest ih =>
    obtain ⟨k2, v2⟩ := p
    by_cases h1 : k2 = k
    · subst h1
      simp [replaceEntry, Props.lookup, Ne.symm h]
    · by_cases h2 : k2 = k1
      · subst h2
        simp [replaceEntry, Props.lookup, h1]
      · simp [replaceEntry, Props.lookup, h1, h2, ih]

theorem Props.lookup_insertEntry_self (k : String) (v : JSValue) (ps : Props)
    (h : hasKey k ps = false) : Props.lookup k (insertEntry k v ps) = some v := by
  induction ps with
  | nil => simp [insertEntry, Props.lookup]
  | cons p rest ih =>
    obtain ⟨k1, v1⟩ := p
    have h1 : ¬ k1 = k := by
      intro hc
      simp [hasKey, hc] at h
    have h2 : hasKey k rest = false := by
      simpa [hasKey, h1] using h
    unfold insertEntry
    split
    · split
      · simp [Props.lookup]
      · simp [Props.lookup, h1, ih h2]
    · simp [Props.lookup]
    · simp [Props.lookup, h1, ih h2]

theorem Props.lookup_insertEntry_other (k k1 : String) (v : JSValue) (ps : Props)
    (h : k1 ≠ k) : Props.lookup k1 (insertEntry k v ps) = Props.lookup k1 ps := by
  induction ps with
  | nil => simp [insertEntry, Props.lookup, Ne.symm h]
  | cons p rest ih =>
    obtain ⟨k2, v2⟩ := p
    unfold insertEntry
    split
    · split
      · simp [Props.lookup, Ne.symm h]
      · by_cases h2 : k2 = k1
        · simp [Props.lookup, h2]
        · simp [Props.lookup, h2, ih]
    · simp [Props.lookup, Ne.symm h]
    · by_cases h2 : k2 = k1
      · simp [Props.lookup, h2]
      · simp [Props.lookup, h2, ih]

theorem Props.keys_replaceEntry (k : String) (v : JSValue) (ps : Props) :
    Props.keys (replaceEntry k v ps) = Props.keys ps := by
  induction ps with
  | nil => rfl
  | cons p rest ih =>
    obtain ⟨k1, v1⟩ := p
    simp only [Props.keys] at ih
    by_cases h1 : k1 = k
    · simp [replaceEntry, Props.keys, h1]
    · simp [replaceEntry, Props.keys, h1, ih]

theorem Props.keys_insertEntry_perm (k : String) (v : JSValue) (ps : Props) :
    (Props.keys (insertEntry k v ps)).Perm (k :: Props.keys ps) := by
  induction ps with
  | nil => simp [insertEntry, Props.keys]
  | cons p rest ih =>
    obtain ⟨k1, v1⟩ := p
    simp only [Props.keys] at ih
    have hstep : (k1 :: List.map Prod.fst (insertEntry k v rest)).Perm
        (k :: k1 :: List.map Prod.fst rest) :=
      ((List.Perm.cons k1 ih).trans (List.Perm.swap k k1 _))
    unfold insertEntry
    split
    · split
      · simp [Props.keys]
      · simpa [Props.keys] using hstep
    · simp [Props.keys]
    · simpa [Props.keys] using hstep

theorem Props.lookup_assign_self (k : String) (v : JSValue) (ps : Props) :
    Props.lookup k (Props.assign k v ps) = some v := by
  unfold Props.assign assignEntry
  cases h : hasKey k ps with
  | true => simpa using Props.lookup_replaceEntry_self k v ps h
  | false => simpa using Props.lookup_insertEntry_self k v ps h

theorem Props.lookup_assign_other (k k' : String) (v : JSValue) (ps : Props) (h : k' ≠ k) :
    Props.lookup k' (Props.assign k v ps) = Props.lookup k' ps := by
  unfold Props.assign assignEntry
  cases hasKey k ps with
  | true => simpa using Props.lookup_replaceEntry_other k k' v ps h
  | false => simpa using Props.lookup_insertEntry_other k k' v ps h

theorem Props.mem_keys_assign (k k' : String) (v : JSValue) (ps : Props) :
    k' ∈ Props.keys (Props.assign k v ps) ↔ k' = k ∨ k' ∈ Props.keys ps := by
  unfold Props.assign assignEntry
  cases h : hasKey k ps with
  | true =>
    have hk : k ∈ Props.keys ps := (Props.hasKey_iff_mem k ps).mp h
    simp only [if_true, Props.keys_replaceEntry]
    constructor
    · exact Or.inr
    · intro hc
      rcases hc with hc | hc
      · rw [hc]
        exact hk
      · exact hc
  | false =>
    simp only [Bool.false_eq_true, if_false]
    rw [(Props.keys_insertEntry_perm k v ps).mem_iff]
    simp

theorem Props.nodup_keys_assign (k : String) (v : JSValue) (ps : Props)
    (h : (Props.keys ps).Nodup) : (Props.keys (Props.assign k v ps)).Nodup := by
  unfold Props.assign assignEntry
  cases hk : hasKey k ps with
  | true => simpa [Props.keys_replaceEntry] using h
  | false =>
    simp only [Bool.false_eq_true, if_false]
    rw [(Props.keys_insertEntry_perm k v ps).nodup_iff, List.nodup_cons]
    refine ⟨?_, h⟩
    intro hc
    have := (Props.hasKey_iff_mem k ps).mpr hc
    rw [hk] at this
    exact absurd this (by simp)

theorem utf8ByteSize_pos_of_ne_empty (s : String) (h : s ≠ "") : 0 < s.utf8ByteSize := by
  obtain ⟨cs⟩ := s
  cases cs with
  | nil => exact absurd rfl h
  | cons c rest =>
    have hc : 0 < c.utf8Size := Char.utf8Size_pos c
    simp only [String.utf8ByteSize, String.utf8ByteSize.go]
    omega

/-! Lemmas on the methods -/

theorem sync_options_storage (db : NativeDB) (w : World) :
    (db.sync w).2.1 = db := by
  unfold NativeDB.sync
  split
  · split <;> rfl
  · split
    · rfl
    · split <;> rfl

theorem deleteEach_obj (ps : Props) (keys : List String) :
    deleteEach (.obj ps) keys = (.ok (), .obj (Props.eraseAll ps keys)) := by
  induction keys generalizing ps with
  | nil => rfl
  | cons k ks ih =>
    simp only [deleteEach, deleteProp, Props.eraseAll, List.foldl_cons]
    exact ih (Props.erase k ps)

theorem set_manual (db : NativeDB) (key : String) (value : JSValue) (w : World)
    (h : db.options.syncOnWrite = false) :
    db.set key value w =
      match setProp db.storage key value with
      | .error e => (.error e, db, w)
      | .ok s => (.ok (), { db with storage := s }, w) := by
  unfold NativeDB.set
  split <;> simp [h]

theorem remove_manual (db : NativeDB) (keys : List String) (w : World)
    (h : db.options.syncOnWrite = false) :
    db.remove keys w =
      match deleteEach db.storage keys with
      | (.error e, s) => (.error e, { db with storage := s }, w)
      | (.ok (), s) => (.ok (), { db with storage := s }, w) := by
  unfold NativeDB.remove
  split <;> simp [h]

theorem clear_manual (db : NativeDB) (w : World) (h : db.options.syncOnWrite = false) :
    db.clear w = (.ok (), { db with storage := .obj [] }, w) := by
  simp [NativeDB.clear, h]

theorem load_missing (db : NativeDB) (w : World) (h : w.node db.filePath = .missing) :
    db.load w =
      (.error (fsError "ENOENT" "no such file or directory" "stat" db.filePath), db, w) := by
  simp [NativeDB.load, statSync, h]

theorem length_ne_zero_of_ne_empty (s : String) (h : s ≠ "") : ¬ s.length = 0 := by
  obtain ⟨cs⟩ := s
  cases cs with
  | nil => exact absurd rfl h
  | cons c rest => simp [String.length]

theorem constructor_of_load (JSON : JSONGlobal) (path : String) (options : Option OptionsArg)
    (w : World) (hpath : path ≠ "") :
    NativeDB.constructor JSON (some path) options w =
      match (NativeDB.mk path (resolveOptions JSON options) (.obj [])).load w with
      | (.ok (), db, w1) => (.ok db, w1)
      | (.error error, db, w1) =>
        if error.code = some "ENOENT" then (.ok db, w1)
        else if error.code = some "EACCES" then
          (.error (newError ("Cannot access path \"" ++ path ++ "\".")), w1)
        else
          (.error (newError ("Error while checking for existence of path \"" ++ path ++ "\": "
            ++ error.toString)), w1) := by
  simp [NativeDB.constructor, length_ne_zero_of_ne_empty path hpath]

theorem put_node_self (w : World) (path : String) (n : Node) :
    (w.put path n).node path = n := by
  simp [World.put]

theorem put_node_other (w : World) (path p : String) (n : Node) (h : p ≠ path) :
    (w.put path n).node p = w.node p := by
  simp [World.put, h]

theorem writeFileSync_ok (w w1 : World) (path data : String)
    (h : writeFileSync w path data = (.ok (), w1)) : w1.content path = some data := by
  unfold writeFileSync at h
  split at h
  · simp at h
  · split at h
    · simp only [Prod.mk.injEq, true_and] at h
      subst h
      simp [World.content, put_node_self]
    · split at h
      · simp only [Prod.mk.injEq, true_and] at h
        subst h
        simp [World.content, put_node_self]
      · simp at h
    · simp at h

theorem sync_ok_content (db : NativeDB) (w : World) (hmode : db.options.asyncWrite = false)
    (h : (db.sync w).1 = .ok ()) :
    ∃ data, db.encoded = .ok data ∧ (db.sync w).2.2.content db.filePath = some data := by
  unfold NativeDB.sync at h ⊢
  simp only [hmode, Bool.false_eq_true, if_false] at h ⊢
  cases hs : db.options.stringify db.storage db.options.jsonSpaces with
  | error e => simp [hs] at h
  | ok data =>
    refine ⟨data, hs, ?_⟩
    simp only [hs] at h ⊢
    cases hw : writeFileSync w db.filePath data with
    | mk r w1 =>
      cases r with
      | error e => simp [hw] at h
      | ok u =>
        simp only [hw]
        exact writeFileSync_ok w w1 db.filePath data hw

theorem sync_detached (db : NativeDB) (w : World) (hmode : db.options.asyncWrite = true) :
    db.sync w =
      match db.encoded with
      | .error e => (.error e, db, w)
      | .ok data => (.ok (), db, promisesWriteFile w db.filePath data) := by
  unfold NativeDB.sync NativeDB.encoded
  simp only [hmode, if_true]

theorem load_decode_error (db : NativeDB) (w : World) (content : String) (e : JSError)
    (hfile : w.node db.filePath = .file content true true) (hsize : 0 < content.utf8ByteSize)
    (hdecode : db.options.parse content = .error e) :
    db.load w = (.error e, db, { w with console := w.console ++
      ["Given filePath is not empty and its content is not valid JSON."] }) := by
  simp [NativeDB.load, statSync, accessSync, readFileSync, NativeDB.validateJSON, hfile, hsize,
    hdecode]

theorem newError_injective (a b : String) (h : newError a = newError b) : a = b := by
  simpa [newError] using h

theorem append_ne_of_head_ne (c d : Char) (s t u v : String) (hs : s.data = c :: u.data)
    (ht : t.data = d :: v.data) (hcd : c ≠ d) (x y : String) : s ++ x ≠ t ++ y := by
  intro h
  have h1 := congrArg String.data h
  simp only [String.data_append, hs, ht, List.cons_append, List.cons.injEq] at h1
  exact hcd h1.1

theorem constructor_missing (JSON : JSONGlobal) (path : String) (options : Option OptionsArg)
    (w : World) (hpath : path ≠ "") (hmissing : w.node path = .missing) :
    NativeDB.constructor JSON (some path) options w
      = (.ok (NativeDB.mk path (resolveOptions JSON options) (.obj [])), w) := by
  rw [constructor_of_load JSON path options w hpath, load_missing _ w hmissing]
  simp [fsError]

theorem load_decoded (db : NativeDB) (w : World) (content : String) (v : JSValue)
    (hfile : w.node db.filePath = .file content true true) (hsize : 0 < content.utf8ByteSize)
    (hdecode : db.options.parse content = .ok v) :
    db.load w = (.ok (), { db with storage := v }, w) := by
  simp [NativeDB.load, statSync, accessSync, readFileSync, NativeDB.validateJSON, hfile, hsize,
    hdecode]

theorem load_empty_file (db : NativeDB) (w : World)
    (hfile : w.node db.filePath = .file "" true true) :
    db.load w = (.ok (), db, w) := by
  have h0 : "".utf8ByteSize = 0 := by decide
  simp [NativeDB.load, statSync, accessSync, hfile, h0]

theorem accepts_iff (w : World) (path : String) :
    w.accepts path = true ↔ w.writeFault path = none
      ∧ (w.node path = .missing ∨ ∃ content, w.node path = .file content true true) := by
  unfold World.accepts
  split <;> simp_all

theorem writeFileSync_accepted (w : World) (path data : String) (h : w.accepts path = true) :
    ∃ w1, writeFileSync w path data = (.ok (), w1)
      ∧ w1.node path = .file data true true ∧ w1.accepts path = true := by
  obtain ⟨hfault, hnode⟩ := (accepts_iff w path).mp h
  have hput : (w.put path (.file data true true)).accepts path = true :=
    (accepts_iff _ path).mpr ⟨hfault, Or.inr ⟨data, put_node_self _ _ _⟩⟩
  rcases hnode with hm | ⟨c, hf⟩
  · refine ⟨w.put path (.file data true true), ?_, put_node_self _ _ _, hput⟩
    simp [writeFileSync, hfault, hm]
  · refine ⟨w.put path (.file data true true), ?_, put_node_self _ _ _, hput⟩
    simp [writeFileSync, hfault, hf]

theorem sync_accepted (db : NativeDB) (w : World) (data : String)
    (hmode : db.options.asyncWrite = false) (henc : db.encoded = .ok data)
    (h : w.accepts db.filePath = true) :
    ∃ w1, db.sync w = (.ok (), db, w1)
      ∧ w1.node db.filePath = .file data true true ∧ w1.accepts db.filePath = true := by
  obtain ⟨w1, hw, hn, ha⟩ := writeFileSync_accepted w db.filePath data h
  refine ⟨w1, ?_, hn, ha⟩
  unfold NativeDB.encoded at henc
  simp [NativeDB.sync, hmode, henc, hw]

theorem Props.erase_eq_filter (k : String) (ps : Props) :
    Props.erase k ps = ps.filter (fun p => decide (p.1 ≠ k)) := by
  induction ps with
  | nil => rfl
  | cons p rest ih =>
    obtain ⟨k1, v1⟩ := p
    by_cases h : k1 = k
    · simp [Props.erase, h, ih]
    · simp [Props.erase, h, ih]

theorem Props.eraseAll_eq_filter (ps : Props) (keys : List String) :
    Props.eraseAll ps keys = ps.filter (fun p => decide (p.1 ∉ keys)) := by
  induction keys generalizing ps with
  | nil => simp [Props.eraseAll]
  | cons k ks ih =>
    have hstep : Props.eraseAll ps (k :: ks) = Props.eraseAll (Props.erase k ps) ks := rfl
    rw [hstep, ih, Props.erase_eq_filter, List.filter_filter]
    congr 1
    funext p
    simp only [List.mem_cons, not_or, ne_eq, Bool.decide_and, Bool.and_comm]

theorem Props.lookup_filter_keys (k : String) (keys : List String) (ps : Props) :
    Props.lookup k (ps.filter (fun p => decide (p.1 ∉ keys)))
      = if k ∈ keys then none else Props.lookup k ps := by
  induction ps with
  | nil => simp [Props.lookup]
  | cons p rest ih =>
    obtain ⟨k1, v1⟩ := p
    by_cases hk1 : k1 ∈ keys
    · have hne : ¬ k1 = k ∨ k ∈ keys := by
        by_cases hk : k1 = k
        · exact Or.inr (hk ▸ hk1)
        · exact Or.inl hk
      rw [List.filter_cons_of_neg (by simpa using hk1), ih]
      by_cases hkk : k ∈ keys
      · simp [hkk]
      · have hk : ¬ k1 = k := by
          rcases hne with h | h
          · exact h
          · exact absurd h hkk
        simp [hkk, Props.lookup, hk]
    · rw [List.filter_cons_of_pos (by simpa using hk1)]
      by_cases hk : k1 = k
      · subst hk
        simp [Props.lookup, hk1]
      · simp only [Props.lookup, hk, if_false]
        exact ih

theorem put_put (w : World) (path : String) (n m : Node) :
    (w.put path n).put path m = w.put path m := by
  unfold World.put
  simp only
  congr 1
  funext p
  by_cases h : p = path <;> simp [h]

theorem writeFileSync_twice (w : World) (path data : String) :
    writeFileSync (writeFileSync w path data).2 path data = writeFileSync w path data := by
  unfold writeFileSync
  cases hf : w.writeFault path with
  | some e => simp [hf]
  | none =>
    cases hn : w.node path with
    | missing =>
      simp only [hn]
      have h1 : (w.put path (.file data true true)).writeFault path = none := hf
      simp [h1, put_node_self, put_put]
    | file c r wr =>
      cases wr with
      | false => simp [hf, hn]
      | true =>
        simp only [hn, if_true]
        have h1 : (w.put path (.file data r true)).writeFault path = none := hf
        simp [h1, put_node_self, put_put]
    | broken e => simp [hf, hn]

theorem sync_twice (db : NativeDB) (w : World) :
    ((db.sync w).2.1.sync (db.sync w).2.2).1 = (db.sync w).1
    ∧ ((db.sync w).2.1.sync (db.sync w).2.2).2.2.node = (db.sync w).2.2.node
    ∧ (db.options.asyncWrite = false →
        ((db.sync w).2.1.sync (db.sync w).2.2).2.2 = (db.sync w).2.2) := by
  rw [sync_options_storage]
  unfold NativeDB.sync
  cases hm : db.options.asyncWrite with
  | true =>
    cases he : db.options.stringify db.storage db.options.jsonSpaces with
    | error e => simp [he]
    | ok data => simp [he, promisesWriteFile]
  | false =>
    cases he : db.options.stringify db.storage db.options.jsonSpaces with
    | error e => simp [he]
    | ok data =>
      have h2 := writeFileSync_twice w db.filePath data
      cases hw : writeFileSync w db.filePath data with
      | mk r w1 =>
        rw [hw] at h2
        simp only at h2
        cases r with
        | error e => simp [he, hw, h2]
        | ok u => simp [he, hw, h2]

theorem clear_eq (db : NativeDB) (w : World) :
    db.clear w =
      if db.options.syncOnWrite then (NativeDB.mk db.filePath db.options (.obj [])).sync w
      else (.ok (), NativeDB.mk db.filePath db.options (.obj []), w) := rfl

theorem clear_instance (db : NativeDB) (w : World) :
    (db.clear w).2.1 = NativeDB.mk db.filePath db.options (.obj []) := by
  rw [clear_eq]
  split
  · exact sync_options_storage _ w
  · rfl

theorem sync_synchronous (db : NativeDB) (w : World) (hmode : db.options.asyncWrite = false) :
    db.sync w =
      match db.encoded with
      | .error e => (.error e, db, w)
      | .ok data => ((writeFileSync w db.filePath data).1, db, (writeFileSync w db.filePath data).2) := by
  unfold NativeDB.sync NativeDB.encoded
  simp only [hmode, Bool.false_eq_true, if_false]
  cases db.options.stringify db.storage db.options.jsonSpaces with
  | error e => rfl
  | ok data =>
    simp only
    cases hw : writeFileSync w db.filePath data with
    | mk r w1 =>
      cases r with
      | error e => rfl
      | ok u => rfl

theorem probe_error_ne_missing (path text : String) :
    newError ("Error while checking for existence of path \"" ++ path ++ "\": " ++ text)
      ≠ newError "Missing file path argument." := by
  intro h
  have h1 := newError_injective _ _ h
  rw [String.append_assoc, String.append_assoc] at h1
  have h2 : "Missing file path argument." = "Missing file path argument." ++ "" := by decide
  rw [h2] at h1
  exact append_ne_of_head_ne 'E' 'M' _ _ "rror while checking for existence of path \""
    "issing file path argument." rfl rfl (by decide) _ _ h1

theorem denied_error_ne_missing (path : String) :
    newError ("Cannot access path \"" ++ path ++ "\".") ≠ newError "Missing file path argument." := by
  intro h
  have h1 := newError_injective _ _ h
  rw [String.append_assoc] at h1
  have h2 : "Missing file path argument." = "Missing file path argument." ++ "" := by decide
  rw [h2] at h1
  exact append_ne_of_head_ne 'C' 'M' _ _ "annot access path \""
    "issing file path argument." rfl rfl (by decide) _ _ h1

theorem load_keeps_options (db : NativeDB) (w : World) :
    (db.load w).2.1.options = db.options ∧ (db.load w).2.1.filePath = db.filePath := by
  unfold NativeDB.load
  repeat' split
  all_goals exact ⟨rfl, rfl⟩

theorem constructor_options (JSON : JSONGlobal) (path : Option String)
    (options : Option OptionsArg) (w w1 : World) (db : NativeDB)
    (h : NativeDB.constructor JSON path options w = (.ok db, w1)) :
    db.options = resolveOptions JSON options := by
  unfold NativeDB.constructor at h
  cases path with
  | none => simp at h
  | some p =>
    simp only at h
    split at h
    · simp at h
    · have hk := load_keeps_options (NativeDB.mk p (resolveOptions JSON options) (.obj [])) w
      split at h
      · next u db2 w2 hl =>
        rw [hl] at hk
        simp only [Prod.mk.injEq, Except.ok.injEq] at h
        rw [← h.1]
        exact hk.1
      · next e db2 w2 hl =>
        rw [hl] at hk
        split at h
        · simp only [Prod.mk.injEq, Except.ok.injEq] at h
          rw [← h.1]
          exact hk.1
        · split at h <;> simp at h

theorem probe_error_ne_denied (path text : String) :
    newError ("Error while checking for existence of path \"" ++ path ++ "\": " ++ text)
      ≠ newError ("Cannot access path \"" ++ path ++ "\".") := by
  intro h
  have h1 := newError_injective _ _ h
  rw [String.append_assoc, String.append_assoc, String.append_assoc] at h1
  exact append_ne_of_head_ne 'E' 'C' _ _ "rror while checking for existence of path \""
    "annot access path \"" rfl rfl (by decide) _ _ h1

theorem load_denied (db : NativeDB) (w : World) (content : String) (r wr : Bool)
    (hfile : w.node db.filePath = .file content r wr) (hperm : (r && wr) = false) :
    db.load w = (.error (fsError "EACCES" "permission denied" "access" db.filePath), db, w) := by
  simp [NativeDB.load, statSync, accessSync, hfile, hperm]

theorem load_broken (db : NativeDB) (w : World) (e : JSError)
    (hnode : w.node db.filePath = .broken e) :
    db.load w = (.error e, db, w) := by
  simp [NativeDB.load, statSync, hnode]

theorem Props.set_of_ne_proto (ps : Props) (key : String) (value : JSValue)
    (h : key ≠ "__proto__") : Props.set ps key value = .obj (Props.assign key value ps) := by
  simp [Props.set, callsProtoSetter, h]

theorem Props.set_isMapping (ps : Props) (key : String) (value : JSValue) :
    (Props.set ps key value).isMapping = true := by
  unfold Props.set setPrototype
  split
  · split <;> rfl
  · rfl

theorem set_obj_storage (db : NativeDB) (ps : Props) (key : String) (value : JSValue) (w : World)
    (htable : db.storage = .obj ps) :
    (db.set key value w).2.1 = NativeDB.mk db.filePath db.options (Props.set ps key value) := by
  unfold NativeDB.set
  rw [htable]
  simp only [setProp]
  split
  · exact sync_options_storage _ w
  · rfl

/-- The methods leave a mapping when they start from a plain object: `set`,
`remove`, `clear` and `sync`. -/
theorem mapping_preserved (db : NativeDB) (ps : Props) (w : World) (key : String)
    (value : JSValue) (keys : List String) (htable : db.storage = .obj ps) :
    (db.set key value w).2.1.storage.isMapping = true
    ∧ (db.remove keys w).2.1.storage.isMapping = true
    ∧ (db.clear w).2.1.storage.isMapping = true
    ∧ (db.sync w).2.1.storage.isMapping = true := by
  refine ⟨?_, ?_, ?_, ?_⟩
  · rw [set_obj_storage db ps key value w htable]
    exact Props.set_isMapping ps key value
  · unfold NativeDB.remove
    rw [htable, deleteEach_obj]
    simp only
    split
    · rw [sync_options_storage]
      rfl
    · rfl
  · rw [clear_instance]
    rfl
  · rw [sync_options_storage, htable]
    rfl

theorem Props.ofEntries_append (t : Props) (k : String) (v : JSValue) :
    Props.ofEntries (t ++ [(k, v)]) = Props.assign k v (Props.ofEntries t) := by
  simp [Props.ofEntries, List.foldl_append]

theorem Props.lookup_append_fresh (t : Props) (k k1 : String) (v : JSValue)
    (h : k ∉ Props.keys t) :
    Props.lookup k1 (t ++ [(k, v)]) = if k1 = k then some v else Props.lookup k1 t := by
  induction t with
  | nil =>
    by_cases h1 : k = k1
    · simp [Props.lookup, h1]
    · have h2 : ¬ k1 = k := fun hc => h1 hc.symm
      simp [Props.lookup, h1, h2]
  | cons p rest ih =>
    obtain ⟨k2, v2⟩ := p
    have hk : Props.keys ((k2, v2) :: rest) = k2 :: Props.keys rest := rfl
    rw [hk, List.mem_cons, not_or] at h
    by_cases h2 : k2 = k1
    · subst h2
      have h3 : ¬ k2 = k := fun hc => h.1 hc.symm
      simp [Props.lookup, h3]
    · simp only [List.cons_append, Props.lookup, h2, if_false]
      exact ih h.2

theorem Props.lookup_ofEntries (t : Props) (h : (Props.keys t).Nodup) (k1 : String) :
    Props.lookup k1 (Props.ofEntries t) = Props.lookup k1 t := by
  induction t using List.reverseRecOn with
  | nil => rfl
  | append_singleton t p ih =>
    obtain ⟨k, v⟩ := p
    have hk : Props.keys (t ++ [(k, v)]) = Props.keys t ++ [k] := by
      simp [Props.keys]
    rw [hk, List.nodup_append] at h
    have hfresh : k ∉ Props.keys t := by
      intro hc
      exact h.2.2 hc (List.mem_singleton_self k)
    rw [Props.ofEntries_append, Props.lookup_append_fresh t k k1 v hfresh]
    by_cases h1 : k1 = k
    · subst h1
      simp [Props.lookup_assign_self]
    · simp [h1, Props.lookup_assign_other k k1 v _ h1, ih h.1]

theorem setEach_builds (path : String) (opts : Options) (table : Props)
    (hmode : opts.asyncWrite = false) (hproto : "__proto__" ∉ Props.keys table)
    (hencodes : opts.syncOnWrite = true → ∀ t, t <+: table →
      ∃ s, opts.stringify (.obj (Props.ofEntries t)) opts.jsonSpaces = .ok s)
    (rest done : Props) (w : World) (hsplit : done ++ rest = table)
    (hw : w.accepts path = true) :
    ∃ w1, (NativeDB.mk path opts (.obj (Props.ofEntries done))).setEach w rest
        = (.ok (), NativeDB.mk path opts (.obj (Props.ofEntries table)), w1)
      ∧ w1.accepts path = true := by
  induction rest generalizing done w with
  | nil =>
    refine ⟨w, ?_, hw⟩
    simp only [List.append_nil] at hsplit
    rw [hsplit]
    rfl
  | cons p rest ih =>
    obtain ⟨k, v⟩ := p
    have hk : k ≠ "__proto__" := by
      intro hc
      apply hproto
      rw [← hsplit, ← hc]
      simp [Props.keys]
    have hset : setProp (.obj (Props.ofEntries done)) k v
        = .ok (.obj (Props.ofEntries (done ++ [(k, v)]))) := by
      simp only [setProp]
      rw [Props.set_of_ne_proto _ k v hk, Props.ofEntries_append]
    have hsplit1 : (done ++ [(k, v)]) ++ rest = table := by
      rw [← hsplit]
      simp
    cases hs : opts.syncOnWrite with
    | false =>
      obtain ⟨w1, h1, h2⟩ := ih (done ++ [(k, v)]) w hsplit1 hw
      refine ⟨w1, ?_, h2⟩
      simp only [NativeDB.setEach]
      rw [set_manual _ k v w hs]
      simp only [hset]
      exact h1
    | true =>
      obtain ⟨s, hs1⟩ := hencodes hs (done ++ [(k, v)]) ⟨rest, hsplit1⟩
      obtain ⟨w0, hsync, _, hw0⟩ := sync_accepted
        (NativeDB.mk path opts (.obj (Props.ofEntries (done ++ [(k, v)])))) w s hmode hs1 hw
      obtain ⟨w1, h1, h2⟩ := ih (done ++ [(k, v)]) w0 hsplit1 hw0
      refine ⟨w1, ?_, h2⟩
      simp only [NativeDB.setEach, NativeDB.set, hset, hs, if_true, hsync]
      exact h1

/-! The claims -/

/-- C1, refuted as stated.  First, with a codec that encodes to the empty text
and decodes every text to the table holding `a: 1`, decoding the encoding of
that table gives it back, the round trip on a path that does not exist
completes, and the store it yields has the empty table.  Second, with the
example codec and a path under which writes fail, the path does not exist, the
codec gives the table back, and the round trip throws at the first write. -/
theorem C1_round_trip_fails :
    (("db.json" ≠ "" ∧ emptyWorld.node "db.json" = .missing
      ∧ (resolveOptions demoJSON (some (blankCodec [("a", .num 1)]))).asyncWrite = false
      ∧ (blankStringify (.obj [("a", .num 1)]) 4).bind (constParse [("a", .num 1)])
          = .ok (.obj [("a", .num 1)]))
      ∧ ∃ db w1, roundTrip demoJSON "db.json" (some (blankCodec [("a", .num 1)]))
          [("a", .num 1)] emptyWorld = (.ok db, w1)
        ∧ db.storage = .obj [] ∧ db.storage ≠ .obj [("a", .num 1)])
    ∧ (("db.json" ≠ "" ∧ faultyWorld.node "db.json" = .missing
      ∧ (demoStringify (.obj [("a", .num 1)]) 4).bind demoParse = .ok (.obj [("a", .num 1)]))
      ∧ thrown (roundTrip demoJSON "db.json" none [("a", .num 1)] faultyWorld).1
          = some (fsError "ENOENT" "no such file or directory" "open" "db.json")) :=
  ⟨⟨⟨by decide, rfl, rfl, rfl⟩, _, _, rfl, rfl, by simp⟩,
   ⟨by decide, rfl, rfl⟩, by decide⟩

/-- C1, amended: for a non-empty path at which nothing exists and at which the
file backend accepts writes, in synchronous-write mode, for a table with
pairwise distinct keys none of which is `__proto__`, and for a codec whose
encoder succeeds on every table the sequence passes through when
`syncOnWrite` is on, and for which decoding the encoding of the table gives
the table back, where that encoding is the empty text only for the empty
table: opening the path, setting every entry of the table, calling `sync()`
and opening the path again all return normally, the store obtained has the
object with the entries of the table as its table, every key having the value
or the absence it has in the table, and the file holds its encoding. -/
theorem C1_round_trip (JSON : JSONGlobal) (path : String) (options : Option OptionsArg)
    (w : World) (table : Props) (data : String)
    (hpath : path ≠ "") (hmissing : w.node path = .missing)
    (hwrite : w.writeFault path = none)
    (hmode : (resolveOptions JSON options).asyncWrite = false)
    (hkeys : (Props.keys table).Nodup) (hproto : "__proto__" ∉ Props.keys table)
    (hencodes : (resolveOptions JSON options).syncOnWrite = true → ∀ t, t <+: table →
      ∃ s, (resolveOptions JSON options).stringify (.obj (Props.ofEntries t))
        (resolveOptions JSON options).jsonSpaces = .ok s)
    (hencode : (resolveOptions JSON options).stringify (.obj (Props.ofEntries table))
      (resolveOptions JSON options).jsonSpaces = .ok data)
    (hdecode : (resolveOptions JSON options).parse data = .ok (.obj (Props.ofEntries table)))
    (hblank : data = "" → table = []) :
    ∃ db w1, roundTrip JSON path options table w = (.ok db, w1)
      ∧ db.storage = .obj (Props.ofEntries table)
      ∧ (∀ k, Props.lookup k (Props.ofEntries table) = Props.lookup k table)
      ∧ w1.content path = some data := by
  have hacc : w.accepts path = true := (accepts_iff w path).mpr ⟨hwrite, Or.inl hmissing⟩
  obtain ⟨w2, hset, hw2⟩ := setEach_builds path (resolveOptions JSON options) table hmode hproto
    hencodes table [] w rfl hacc
  have hset0 : (NativeDB.mk path (resolveOptions JSON options) (.obj [])).setEach w table
      = (.ok (), NativeDB.mk path (resolveOptions JSON options) (.obj (Props.ofEntries table)),
          w2) := hset
  obtain ⟨w3, hsync, hnode, _⟩ := sync_accepted
    (NativeDB.mk path (resolveOptions JSON options) (.obj (Props.ofEntries table))) w2 data
    hmode hencode hw2
  have hrun : roundTrip JSON path options table w
      = NativeDB.constructor JSON (some path) options w3 := by
    simp only [roundTrip, constructor_missing JSON path options w hpath hmissing, hset0, hsync]
  have hcontent : w3.content path = some data := by
    simp [World.content, hnode]
  have hlook := Props.lookup_ofEntries table hkeys
  by_cases hd : data = ""
  · have ht := hblank hd
    subst hd
    subst ht
    refine ⟨NativeDB.mk path (resolveOptions JSON options) (.obj []), w3, ?_, rfl, hlook,
      hcontent⟩
    rw [hrun, constructor_of_load JSON path options w3 hpath,
      load_empty_file (NativeDB.mk path (resolveOptions JSON options) (.obj [])) w3 hnode]
  · refine ⟨NativeDB.mk path (resolveOptions JSON options) (.obj (Props.ofEntries table)), w3,
      ?_, rfl, hlook, hcontent⟩
    rw [hrun, constructor_of_load JSON path options w3 hpath,
      load_decoded (NativeDB.mk path (resolveOptions JSON options) (.obj [])) w3 data
        (.obj (Props.ofEntries table)) hnode (utf8ByteSize_pos_of_ne_empty data hd) hdecode]

/-- C1 amended, at a concrete input: the round trip of the table holding
`a: 1` through `db.json` with the default options and the example codec. -/
theorem C1_round_trip_witness :
    ∃ db w1, roundTrip demoJSON "db.json" none [("a", .num 1)] emptyWorld = (.ok db, w1)
      ∧ db.storage = .obj [("a", .num 1)]
      ∧ w1.content "db.json" = some "\x7b\n    \"a\": 1\n\x7d" := by
  obtain ⟨db, w1, h1, h2, _, h3⟩ := C1_round_trip demoJSON "db.json" none emptyWorld
    [("a", .num 1)] "\x7b\n    \"a\": 1\n\x7d"
    (by decide) rfl rfl rfl (by simp [Props.keys]) (by simp [Props.keys])
    (by
      intro _ t ht
      have hcases : t = [] ∨ t = [("a", .num 1)] := by
        rcases ht with ⟨r, hr⟩
        cases t with
        | nil => exact Or.inl rfl
        | cons x xs =>
          cases xs with
          | nil =>
            simp only [List.cons_append, List.nil_append, List.cons.injEq] at hr
            exact Or.inr (by rw [hr.1])
          | cons y ys => simp at hr
      rcases hcases with h | h
      · subst h
        exact ⟨_, rfl⟩
      · subst h
        exact ⟨_, rfl⟩)
    rfl rfl (by
      intro h
      exact absurd h (by decide))
  exact ⟨db, w1, h1, h2, h3⟩

/-- C2 (write-through): with `syncOnWrite` on and `asyncWrite` off, whenever
`set`, `remove` or `clear` returns normally, encoding the table the call
leaves, with the configured indentation, succeeds and the file at the path of
the store holds exactly that text, whatever it held before. -/
theorem C2_write_through (db : NativeDB) (w : World)
    (hsync : db.options.syncOnWrite = true) (hmode : db.options.asyncWrite = false) :
    (∀ key value, (db.set key value w).1 = .ok () →
      ∃ data, (db.set key value w).2.1.encoded = .ok data
        ∧ (db.set key value w).2.2.content db.filePath = some data)
    ∧ (∀ keys, (db.remove keys w).1 = .ok () →
      ∃ data, (db.remove keys w).2.1.encoded = .ok data
        ∧ (db.remove keys w).2.2.content db.filePath = some data)
    ∧ ((db.clear w).1 = .ok () →
      ∃ data, (db.clear w).2.1.encoded = .ok data
        ∧ (db.clear w).2.2.content db.filePath = some data) := by
  refine ⟨?_, ?_, ?_⟩
  · intro key value h
    unfold NativeDB.set at h ⊢
    cases hp : setProp db.storage key value with
    | error e => simp [hp] at h
    | ok s =>
      simp only [hp, hsync, if_true] at h ⊢
      rw [sync_options_storage]
      exact sync_ok_content (NativeDB.mk db.filePath db.options s) w hmode h
  · intro keys h
    unfold NativeDB.remove at h ⊢
    cases hd : deleteEach db.storage keys with
    | mk r s =>
      cases r with
      | error e => simp [hd] at h
      | ok u =>
        simp only [hd, hsync, if_true] at h ⊢
        rw [sync_options_storage]
        exact sync_ok_content (NativeDB.mk db.filePath db.options s) w hmode h
  · intro h
    unfold NativeDB.clear at h ⊢
    simp only [hsync, if_true] at h ⊢
    rw [sync_options_storage]
    exact sync_ok_content (NativeDB.mk db.filePath db.options (.obj [])) w hmode h

/-- C2, at the scenario of the specification: on an empty store with
`syncOnWrite` on and two spaces of indentation, `set("a", 1)` returns normally
and leaves the file with the two-space encoding of the table. -/
theorem C2_write_through_witness :
    (storeOf (.obj []) false true 2).options.syncOnWrite = true
    ∧ (storeOf (.obj []) false true 2).options.asyncWrite = false
    ∧ ((storeOf (.obj []) false true 2).set "a" (.num 1) (worldWith "db.json" "old")).1 = .ok ()
    ∧ ((storeOf (.obj []) false true 2).set "a" (.num 1)
        (worldWith "db.json" "old")).2.2.content "db.json" = some "\x7b\n  \"a\": 1\n\x7d"
    ∧ ∃ data,
        ((storeOf (.obj []) false true 2).set "a" (.num 1) (worldWith "db.json" "old")).2.1.encoded
          = .ok data
        ∧ ((storeOf (.obj []) false true 2).set "a" (.num 1)
            (worldWith "db.json" "old")).2.2.content "db.json" = some data :=
  ⟨rfl, rfl, rfl, by decide,
    (C2_write_through (storeOf (.obj []) false true 2) (worldWith "db.json" "old") rfl rfl).1
      "a" (.num 1) rfl⟩

/-- C3, refuted as stated.  First, after the constructor has returned normally
on a file holding the text `null`, with `syncOnWrite` off, `set("a", 1)` throws
and leaves the table as it was, `null`: the table is not updated.  Second, on
the empty mapping with `syncOnWrite` off, `set("__proto__", 1)` returns
normally and leaves the table as it was, without the key. -/
theorem C3_table_not_updated :
    (∃ db w1, NativeDB.constructor demoJSON (some "db.json") (some manualSync)
        (worldWith "db.json" "null") = (.ok db, w1)
      ∧ db.options.syncOnWrite = false
      ∧ thrown (db.set "a" (.num 1) w1).1
          = some (typeError "Cannot set properties of null (setting \x27a\x27)")
      ∧ (db.set "a" (.num 1) w1).2.1.storage = .null)
    ∧ ((storeOf (.obj []) false false 4).options.syncOnWrite = false
      ∧ ((storeOf (.obj []) false false 4).set "__proto__" (.num 1) emptyWorld).1 = .ok ()
      ∧ ((storeOf (.obj []) false false 4).set "__proto__" (.num 1) emptyWorld).2.1.storage
          = .obj []) :=
  ⟨⟨_, _, rfl, rfl, by decide, rfl⟩, rfl, rfl, rfl⟩

/-- C3, amended (sync gating): with `syncOnWrite` off, `set`, `remove` and
`clear` leave the whole world as it was, so the file at the path of the store
exists or not and holds what it held before the call, for every store state,
key, value and key list; and on a table that is a mapping the table in memory
is updated: `set` of a key other than `__proto__` assigns the key, `remove`
erases the listed keys, `clear` leaves the empty mapping.  An explicit
synchronous `sync()` that returns normally is what changes the file: it then
holds the encoding of the table. -/
theorem C3_sync_gating (db : NativeDB) (w : World) (hgate : db.options.syncOnWrite = false)
    (key : String) (value : JSValue) (keys : List String) :
    (db.set key value w).2.2 = w ∧ (db.remove keys w).2.2 = w ∧ (db.clear w).2.2 = w
    ∧ (∀ path, (db.set key value w).2.2.content path = w.content path
        ∧ (db.remove keys w).2.2.content path = w.content path
        ∧ (db.clear w).2.2.content path = w.content path)
    ∧ (∀ ps, db.storage = .obj ps →
        (key ≠ "__proto__" →
          (db.set key value w).2.1.storage = .obj (Props.assign key value ps))
        ∧ (db.remove keys w).2.1.storage = .obj (Props.eraseAll ps keys))
    ∧ (db.clear w).2.1.storage = .obj []
    ∧ (db.options.asyncWrite = false → (db.sync w).1 = .ok () →
        ∃ data, db.encoded = .ok data ∧ (db.sync w).2.2.content db.filePath = some data) := by
  have hset : (db.set key value w).2.2 = w := by
    rw [set_manual db key value w hgate]
    split <;> rfl
  have hrem : (db.remove keys w).2.2 = w := by
    rw [remove_manual db keys w hgate]
    split <;> rfl
  have hclr : (db.clear w).2.2 = w := by
    rw [clear_manual db w hgate]
  refine ⟨hset, hrem, hclr, ?_, ?_, ?_, sync_ok_content db w⟩
  · intro path
    rw [hset, hrem, hclr]
    exact ⟨rfl, rfl, rfl⟩
  · intro ps hps
    constructor
    · intro hkey
      rw [set_obj_storage db ps key value w hps, Props.set_of_ne_proto ps key value hkey]
    · rw [remove_manual db keys w hgate, hps, deleteEach_obj]
  · rw [clear_manual db w hgate]

/-- C3 amended, at a concrete input: a store holding `a: 1` over a file that
still holds the text `old`. -/
theorem C3_sync_gating_witness :
    (storeOf (.obj [("a", .num 1)]) false false 4).options.syncOnWrite = false
    ∧ ((storeOf (.obj [("a", .num 1)]) false false 4).set "b" .null
        (worldWith "db.json" "old")).2.2.content "db.json" = some "old"
    ∧ ((storeOf (.obj [("a", .num 1)]) false false 4).set "b" .null
        (worldWith "db.json" "old")).2.1.storage = .obj [("a", .num 1), ("b", .null)]
    ∧ ((storeOf (.obj [("a", .num 1)]) false false 4).remove ["a"]
        (worldWith "db.json" "old")).2.1.storage = .obj [] :=
  ⟨rfl,
   ((C3_sync_gating (storeOf (.obj [("a", .num 1)]) false false 4) (worldWith "db.json" "old")
      rfl "b" .null ["a"]).2.2.2.1 "db.json").1,
   ((C3_sync_gating (storeOf (.obj [("a", .num 1)]) false false 4) (worldWith "db.json" "old")
      rfl "b" .null ["a"]).2.2.2.2.1 [("a", .num 1)] rfl).1 (by decide),
   ((C3_sync_gating (storeOf (.obj [("a", .num 1)]) false false 4) (worldWith "db.json" "old")
      rfl "b" .null ["a"]).2.2.2.2.1 [("a", .num 1)] rfl).2⟩

/-- C4, refuted as stated, on the existing, readable and writable file
`db.json` holding the eight bytes `not json`.  First, a decoder that rejects
the content with an error whose code is `ENOENT`, as one that fails to open a
file of its own does, makes the constructor return a store with the empty
table.  Second, a decoder that rejects the content with the error of a failing
`stat` makes the constructor throw the very error it throws when `stat` itself
fails so. -/
theorem C4_decode_failure_not_reported_as_corrupt :
    ((worldWith "db.json" "not json").node "db.json" = .file "not json" true true
      ∧ 0 < "not json".utf8ByteSize)
    ∧ (∃ db w1, NativeDB.constructor demoJSON (some "db.json")
        (some (withParse (failingParse
          (fsError "ENOENT" "no such file or directory" "open" "schema.json"))))
        (worldWith "db.json" "not json") = (.ok db, w1) ∧ db.storage = .obj [])
    ∧ thrown (NativeDB.constructor demoJSON (some "db.json")
        (some (withParse (failingParse (fsError "EIO" "i/o error" "stat" "db.json"))))
        (worldWith "db.json" "not json")).1
      = some (newError ("Error while checking for existence of path \"db.json\": "
          ++ "Error: EIO: i/o error, stat \x27db.json\x27"))
    ∧ thrown (NativeDB.constructor demoJSON (some "db.json") none
        (emptyWorld.put "db.json" (.broken (fsError "EIO" "i/o error" "stat" "db.json")))).1
      = some (newError ("Error while checking for existence of path \"db.json\": "
          ++ "Error: EIO: i/o error, stat \x27db.json\x27")) :=
  ⟨⟨rfl, by decide⟩, ⟨_, _, rfl, rfl⟩, by decide, by decide⟩

/-- C4, amended: when the path exists, is readable and writable, has non-zero
size, and the decoder rejects its content with an error whose code is neither
`ENOENT` nor `EACCES`, the constructor throws and returns no store; the error
is the one it throws for any other failure of the probe, its message carries
the path and the text of the decoder error, and differs from the messages for
a path that cannot be accessed and for a missing path argument; the file system
is left as it was. -/
theorem C4_corrupt_guard (JSON : JSONGlobal) (path : String) (options : Option OptionsArg)
    (w : World) (content : String) (e : JSError)
    (hpath : path ≠ "") (hfile : w.node path = .file content true true)
    (hsize : 0 < content.utf8ByteSize)
    (hdecode : (resolveOptions JSON options).parse content = .error e)
    (hnotfound : e.code ≠ some "ENOENT") (hdenied : e.code ≠ some "EACCES") :
    ∃ w1, NativeDB.constructor JSON (some path) options w
        = (.error (newError ("Error while checking for existence of path \"" ++ path ++ "\": "
            ++ e.toString)), w1)
      ∧ w1.node = w.node ∧ w1.writeFault = w.writeFault ∧ w1.pending = w.pending
      ∧ w1.content path = some content
      ∧ newError ("Error while checking for existence of path \"" ++ path ++ "\": " ++ e.toString)
          ≠ newError ("Cannot access path \"" ++ path ++ "\".")
      ∧ newError ("Error while checking for existence of path \"" ++ path ++ "\": " ++ e.toString)
          ≠ newError "Missing file path argument." := by
  refine ⟨{ w with console := w.console ++
      ["Given filePath is not empty and its content is not valid JSON."] }, ?_, rfl, rfl, rfl,
    ?_, ?_, ?_⟩
  · rw [constructor_of_load JSON path options w hpath,
      load_decode_error _ w content e hfile hsize hdecode]
    simp [hnotfound, hdenied]
  · simp [World.content, hfile]
  · intro h
    have h1 := newError_injective _ _ h
    rw [String.append_assoc, String.append_assoc, String.append_assoc] at h1
    exact append_ne_of_head_ne 'E' 'C' _ _ "rror while checking for existence of path \""
      "annot access path \"" rfl rfl (by decide) _ _ h1
  · intro h
    have h1 := newError_injective _ _ h
    rw [String.append_assoc, String.append_assoc] at h1
    have h2 : "Missing file path argument." = "Missing file path argument." ++ "" := by decide
    rw [h2] at h1
    exact append_ne_of_head_ne 'E' 'M' _ _ "rror while checking for existence of path \""
      "issing file path argument." rfl rfl (by decide) _ _ h1

/-- C4 amended, at a concrete input: the file `db.json` holds text the example
decoder rejects with a `SyntaxError`. -/
theorem C4_corrupt_guard_witness :
    "db.json" ≠ "" ∧ (worldWith "db.json" "not json").node "db.json" = .file "not json" true true
    ∧ 0 < "not json".utf8ByteSize
    ∧ demoParse "not json" = .error ⟨"SyntaxError", "Unexpected token in JSON at position 0", none⟩
    ∧ ∃ w1, NativeDB.constructor demoJSON (some "db.json") none (worldWith "db.json" "not json")
        = (.error (newError ("Error while checking for existence of path \"" ++ "db.json"
            ++ "\": " ++ "SyntaxError: Unexpected token in JSON at position 0")), w1)
      ∧ w1.content "db.json" = some "not json" := by
  obtain ⟨w1, h1, _, _, _, h2, _⟩ := C4_corrupt_guard demoJSON "db.json" none
    (worldWith "db.json" "not json") "not json"
    ⟨"SyntaxError", "Unexpected token in JSON at position 0", none⟩
    (by decide) rfl (by decide) rfl (by decide) (by decide)
  exact ⟨by decide, rfl, by decide, rfl, w1, h1, h2⟩

/-- C5 (fresh store): opening a non-empty path at which nothing exists succeeds
whatever the options are, the store has the empty table, and the world is left
as it was, so that the path still does not exist when the constructor
returns. -/
theorem C5_fresh_store (JSON : JSONGlobal) (path : String) (options : Option OptionsArg)
    (w : World) (hpath : path ≠ "") (hmissing : w.node path = .missing) :
    ∃ db, NativeDB.constructor JSON (some path) options w = (.ok db, w)
      ∧ db.storage = .obj [] ∧ db.filePath = path
      ∧ (NativeDB.constructor JSON (some path) options w).2.node path = .missing := by
  have hc : NativeDB.constructor JSON (some path) options w
      = (.ok (NativeDB.mk path (resolveOptions JSON options) (.obj [])), w) := by
    rw [constructor_of_load JSON path options w hpath, load_missing _ w hmissing]
    simp [fsError]
  exact ⟨_, hc, rfl, rfl, by rw [hc]; exact hmissing⟩

/-- C5, at a concrete input: opening `db.json` in the empty world. -/
theorem C5_fresh_store_witness :
    "db.json" ≠ "" ∧ emptyWorld.node "db.json" = .missing ∧
    ∃ db, NativeDB.constructor demoJSON (some "db.json") none emptyWorld = (.ok db, emptyWorld)
      ∧ db.storage = .obj [] ∧ db.filePath = "db.json"
      ∧ (NativeDB.constructor demoJSON (some "db.json") none emptyWorld).2.node "db.json"
          = .missing :=
  ⟨by decide, rfl, C5_fresh_store demoJSON "db.json" none emptyWorld (by decide) rfl⟩

/-- C6, refuted as stated: in detached mode, on a table the encoder rejects,
`sync()` throws the error of the encoder to its caller, and so does a `set` that
triggers the sync. -/
theorem C6_encode_failure_thrown_in_detached_mode :
    (storeOf (.obj [("b", .null)]) true true 4).options.asyncWrite = true
    ∧ ((storeOf (.obj [("b", .null)]) true true 4).sync emptyWorld).1
        = .error (typeError "Converting circular structure to JSON")
    ∧ ((storeOf (.obj []) true true 4).set "b" .null emptyWorld).1
        = .error (typeError "Converting circular structure to JSON") :=
  ⟨rfl, rfl, rfl⟩

/-- C6, amended: in detached mode `sync()` completes exactly as the encoder
does on the current table, whatever the world is: when the encoder succeeds the
call returns normally having only issued the write, so that no failure of the
write reaches the caller, and when the encoder throws, its error is thrown to
the caller.  A `set`, `remove` or `clear` that reaches the sync it triggers
completes in the same way, on the table it leaves. -/
theorem C6_detached_mode (db : NativeDB) (w : World) (hmode : db.options.asyncWrite = true) :
    (db.sync w).1 = db.encoded.map (fun _ => ())
    ∧ (∀ data, db.encoded = .ok data →
        db.sync w = (.ok (), db, promisesWriteFile w db.filePath data)
        ∧ (db.sync w).2.2.node = w.node)
    ∧ (∀ e, db.encoded = .error e → db.sync w = (.error e, db, w))
    ∧ (db.options.syncOnWrite = true →
        (∀ key value s, setProp db.storage key value = .ok s →
          (db.set key value w).1
            = (NativeDB.mk db.filePath db.options s).encoded.map (fun _ => ()))
        ∧ (∀ keys s, deleteEach db.storage keys = (.ok (), s) →
          (db.remove keys w).1
            = (NativeDB.mk db.filePath db.options s).encoded.map (fun _ => ()))
        ∧ (db.clear w).1
            = (NativeDB.mk db.filePath db.options (.obj [])).encoded.map (fun _ => ())) := by
  have hsync : ∀ d : NativeDB, d.options.asyncWrite = true →
      (d.sync w).1 = d.encoded.map (fun _ => ()) := by
    intro d hd
    rw [sync_detached d w hd]
    cases d.encoded <;> rfl
  refine ⟨hsync db hmode, ?_, ?_, ?_⟩
  · intro data h
    rw [sync_detached db w hmode, h]
    exact ⟨rfl, rfl⟩
  · intro e h
    rw [sync_detached db w hmode, h]
  · intro hs
    refine ⟨?_, ?_, ?_⟩
    · intro key value s h
      unfold NativeDB.set
      simp only [h, hs, if_true]
      exact hsync _ hmode
    · intro keys s h
      unfold NativeDB.remove
      simp only [h, hs, if_true]
      exact hsync _ hmode
    · unfold NativeDB.clear
      simp only [hs, if_true]
      exact hsync _ hmode

/-- C6 amended, at a concrete input: a detached `sync()` of the empty table
returns normally in a world in which every write fails. -/
theorem C6_detached_mode_witness :
    (storeOf (.obj []) true true 4).options.asyncWrite = true
    ∧ faultyWorld.writeFault "db.json"
        = some (fsError "ENOENT" "no such file or directory" "open" "db.json")
    ∧ ((storeOf (.obj []) true true 4).sync faultyWorld).1 = .ok () :=
  ⟨rfl, rfl, (C6_detached_mode (storeOf (.obj []) true true 4) faultyWorld rfl).1⟩

/-- C7, the failing input: the file `db.json` holds the text `null`, which the
decoder accepts as `JSON.parse` does; the constructor returns normally and the
table of the store is `null`, not a mapping. -/
theorem C7_table_not_a_mapping_after_open :
    demoParse "null" = .ok .null
    ∧ ∃ db w1, NativeDB.constructor demoJSON (some "db.json") none (worldWith "db.json" "null")
        = (.ok db, w1)
      ∧ db.storage = .null ∧ db.storage.isMapping = false :=
  ⟨rfl, _, _, rfl, rfl, rfl⟩

/-- C8, refuted as stated.  First, after the constructor has returned normally
on a file holding the text `null`, with `syncOnWrite` off, `set` and `remove`
throw a `TypeError` although no sync is triggered.  Second, in detached mode
with `syncOnWrite` on, `set` on the empty mapping throws the error of the
encoder, through the sync it triggers. -/
theorem C8_mutation_failures :
    (∃ db w1, NativeDB.constructor demoJSON (some "db.json") (some manualSync)
        (worldWith "db.json" "null") = (.ok db, w1)
      ∧ db.options.syncOnWrite = false
      ∧ thrown (db.set "a" (.num 1) w1).1
          = some (typeError "Cannot set properties of null (setting \x27a\x27)")
      ∧ thrown (db.remove ["a"] w1).1
          = some (typeError "Cannot convert undefined or null to object"))
    ∧ ((storeOf (.obj []) true true 4).options.asyncWrite = true
      ∧ (storeOf (.obj []) true true 4).options.syncOnWrite = true
      ∧ (storeOf (.obj []) true true 4).storage.isMapping = true
      ∧ thrown ((storeOf (.obj []) true true 4).set "b" .null emptyWorld).1
          = some (typeError "Converting circular structure to JSON")) :=
  ⟨⟨_, _, rfl, rfl, by decide, by decide⟩, rfl, rfl, rfl, by decide⟩

/-- C8, amended: on a table that is a mapping, with `syncOnWrite` off, `set`,
`remove` and `clear` return normally for every key, value and key list; with
`syncOnWrite` on, each of them completes exactly as the sync it triggers on the
table it leaves, in synchronous-write mode and in detached mode alike, so that
it fails only when that sync fails.  The table `set` leaves has the key
assigned when the key is not `__proto__`. -/
theorem C8_mutations_on_mapping (db : NativeDB) (ps : Props) (w : World) (key : String)
    (value : JSValue) (keys : List String) (htable : db.storage = .obj ps) :
    (db.options.syncOnWrite = false →
      (db.set key value w).1 = .ok () ∧ (db.remove keys w).1 = .ok ()
        ∧ (db.clear w).1 = .ok ())
    ∧ (db.options.syncOnWrite = true →
      (db.set key value w).1
          = ((NativeDB.mk db.filePath db.options (Props.set ps key value)).sync w).1
        ∧ (key ≠ "__proto__" → Props.set ps key value = .obj (Props.assign key value ps))
        ∧ (db.remove keys w).1
          = ((NativeDB.mk db.filePath db.options (.obj (Props.eraseAll ps keys))).sync w).1
        ∧ (db.clear w).1 = ((NativeDB.mk db.filePath db.options (.obj [])).sync w).1) := by
  constructor
  · intro h
    refine ⟨?_, ?_, ?_⟩
    · rw [set_manual db key value w h, htable]
      rfl
    · rw [remove_manual db keys w h, htable, deleteEach_obj]
    · rw [clear_manual db w h]
  · intro h
    refine ⟨?_, Props.set_of_ne_proto ps key value, ?_, ?_⟩
    · unfold NativeDB.set
      rw [htable]
      simp [setProp, h]
    · unfold NativeDB.remove
      rw [htable, deleteEach_obj]
      simp [h]
    · unfold NativeDB.clear
      simp [h]

/-- C8 amended, at a concrete input: with `syncOnWrite` off, the three
mutations on the table holding `a: 1` return normally in a world in which
every write fails. -/
theorem C8_mutations_on_mapping_witness :
    (storeOf (.obj [("a", .num 1)]) false false 4).storage = .obj [("a", .num 1)]
    ∧ (storeOf (.obj [("a", .num 1)]) false false 4).options.syncOnWrite = false
    ∧ ((storeOf (.obj [("a", .num 1)]) false false 4).set "length" (.arr [] []) faultyWorld).1
        = .ok ()
    ∧ ((storeOf (.obj [("a", .num 1)]) false false 4).remove ["a", "nope"] faultyWorld).1
        = .ok ()
    ∧ ((storeOf (.obj [("a", .num 1)]) false false 4).clear faultyWorld).1 = .ok () :=
  ⟨rfl, rfl,
    (C8_mutations_on_mapping (storeOf (.obj [("a", .num 1)]) false false 4) [("a", .num 1)]
      faultyWorld "length" (.arr [] []) ["a", "nope"] rfl).1 rfl⟩

/-- C9, the failing input: the file `db.json` holds the empty object and the
store is opened on it.  `get("toString")` returns an object in which the key,
absent from the table, maps to the function inherited from
`Object.prototype`, not to `undefined`; `get("__proto__")` returns an object
without the requested key.  On keys that name nothing inherited, `get` does
map a key of the table to its value and an absent key to `undefined`. -/
theorem C9_get_returns_inherited_member :
    ∃ db w1, NativeDB.constructor demoJSON (some "db.json") none
        (worldWith "db.json" "\x7b\x7d") = (.ok db, w1)
      ∧ db.storage = .obj []
      ∧ Props.lookup "toString" [] = none
      ∧ db.get ["toString"]
          = .ok (.picked ⟨.prototype .object, [("toString", .member .object "toString")]⟩)
      ∧ db.get ["__proto__"] = .ok (.picked ⟨.prototype .object, []⟩)
      ∧ (storeOf (.obj [("a", .num 1)]) false true 4).get ["a", "missing"]
          = .ok (.picked ⟨.prototype .object,
              [("a", .data (.num 1)), ("missing", .data .undefined)]⟩) :=
  ⟨_, _, rfl, rfl, rfl, rfl, rfl, rfl⟩

/-- C10, the failing input: on the empty store with `syncOnWrite` off,
`set("__proto__", v)` with `v` the object holding `a: 1` returns normally;
the table it leaves has no own key `__proto__`, `get("__proto__")` on it
returns an object without that key, and the key `a`, absent before the call
and read as `undefined`, is read as `1` after it. -/
theorem C10_set_proto_key_not_stored :
    (storeOf (.obj []) false false 4).get ["a"]
      = .ok (.picked ⟨.prototype .object, [("a", .data .undefined)]⟩)
    ∧ ((storeOf (.obj []) false false 4).set "__proto__" (.obj [("a", .num 1)]) emptyWorld).1
        = .ok ()
    ∧ ((storeOf (.obj []) false false 4).set "__proto__" (.obj [("a", .num 1)])
        emptyWorld).2.1.storage = .reproto (.obj [("a", .num 1)]) (.obj [])
    ∧ ownProp ((storeOf (.obj []) false false 4).set "__proto__" (.obj [("a", .num 1)])
        emptyWorld).2.1.storage "__proto__" = none
    ∧ ((storeOf (.obj []) false false 4).set "__proto__" (.obj [("a", .num 1)])
        emptyWorld).2.1.get ["__proto__"]
        = .ok (.picked ⟨.data (.obj [("a", .num 1)]), []⟩)
    ∧ ((storeOf (.obj []) false false 4).set "__proto__" (.obj [("a", .num 1)])
        emptyWorld).2.1.get ["a"]
        = .ok (.picked ⟨.prototype .object, [("a", .data (.num 1))]⟩) :=
  ⟨rfl, rfl, rfl, rfl, rfl, rfl⟩

/-- C11 (remove postcondition): on a table that is a mapping, `remove(...keys)`
leaves the old table restricted to the keys that are not listed: a listed key
is absent, every other key keeps its value or its absence; when no listed key
is in the table the table is left exactly as it was.  The call returns
normally when `syncOnWrite` is off and otherwise completes as the sync it
triggers does. -/
theorem C11_remove_postcondition (db : NativeDB) (ps : Props) (keys : List String) (w : World)
    (htable : db.storage = .obj ps) :
    (db.remove keys w).2.1.storage = .obj (ps.filter (fun p => decide (p.1 ∉ keys)))
    ∧ (∃ ps1, (db.remove keys w).2.1.storage = .obj ps1
        ∧ (∀ k, k ∈ keys → Props.lookup k ps1 = none)
        ∧ (∀ k, k ∉ keys → Props.lookup k ps1 = Props.lookup k ps))
    ∧ ((∀ k, k ∈ keys → k ∉ Props.keys ps) → (db.remove keys w).2.1.storage = .obj ps)
    ∧ (db.options.syncOnWrite = false → (db.remove keys w).1 = .ok ())
    ∧ (db.options.syncOnWrite = true → (db.remove keys w).1
        = ((NativeDB.mk db.filePath db.options (.obj (Props.eraseAll ps keys))).sync w).1) := by
  have hstore : (db.remove keys w).2.1.storage
      = .obj (ps.filter (fun p => decide (p.1 ∉ keys))) := by
    rw [← Props.eraseAll_eq_filter]
    unfold NativeDB.remove
    rw [htable, deleteEach_obj]
    simp only
    split
    · rw [sync_options_storage]
    · rfl
  refine ⟨hstore, ⟨_, hstore, ?_, ?_⟩, ?_, ?_, ?_⟩
  · intro k hk
    rw [Props.lookup_filter_keys]
    simp [hk]
  · intro k hk
    rw [Props.lookup_filter_keys]
    simp [hk]
  · intro habsent
    rw [hstore]
    congr 1
    rw [List.filter_eq_self]
    intro p hp
    have hmem : p.1 ∈ Props.keys ps := List.mem_map_of_mem Prod.fst hp
    have : p.1 ∉ keys := fun hin => habsent p.1 hin hmem
    simpa using this
  · intro h
    rw [remove_manual db keys w h, htable, deleteEach_obj]
  · intro h
    unfold NativeDB.remove
    rw [htable, deleteEach_obj]
    simp [h]

/-- C11, at the scenario of the specification: `remove("nope")` on the table
holding `a: 1`, with `syncOnWrite` off, and `remove("a", "nope")` on the same
table. -/
theorem C11_remove_postcondition_witness :
    (storeOf (.obj [("a", .num 1)]) false false 4).storage = .obj [("a", .num 1)]
    ∧ ((storeOf (.obj [("a", .num 1)]) false false 4).remove ["nope"] emptyWorld).2.1.storage
        = .obj [("a", .num 1)]
    ∧ ((storeOf (.obj [("a", .num 1)]) false false 4).remove ["nope"] emptyWorld).1 = .ok ()
    ∧ ((storeOf (.obj [("a", .num 1)]) false false 4).remove ["a", "nope"]
        emptyWorld).2.1.storage = .obj [] :=
  ⟨rfl,
    (C11_remove_postcondition (storeOf (.obj [("a", .num 1)]) false false 4) [("a", .num 1)]
      ["nope"] emptyWorld rfl).2.2.1 (by simp [Props.keys]),
    (C11_remove_postcondition (storeOf (.obj [("a", .num 1)]) false false 4) [("a", .num 1)]
      ["nope"] emptyWorld rfl).2.2.2.1 rfl,
    rfl⟩

/-- C12 (idempotent clear): for every store state, `clear()` leaves the empty
table, and so does a second `clear()`; the two calls together complete as the
first one does and leave the same instance and the same file system, and in
synchronous-write mode the same world.  In synchronous-write mode a `sync()`
after either that returns normally leaves the file holding the encoding of the
empty mapping with the configured indentation, and it does return normally
whenever the encoder accepts the empty mapping and the backend accepts the
write. -/
theorem C12_idempotent_clear (db : NativeDB) (w : World) :
    (db.clear w).2.1.storage = .obj []
    ∧ (db.clearTwice w).2.1.storage = .obj []
    ∧ (db.clearTwice w).2.1 = (db.clear w).2.1
    ∧ (db.clearTwice w).1 = (db.clear w).1
    ∧ (db.clearTwice w).2.2.node = (db.clear w).2.2.node
    ∧ (db.options.asyncWrite = false →
        (db.clearTwice w).2.2 = (db.clear w).2.2
        ∧ (((db.clear w).2.1.sync (db.clear w).2.2).1 = .ok () →
            ∃ data, db.options.stringify (.obj []) db.options.jsonSpaces = .ok data
              ∧ ((db.clear w).2.1.sync (db.clear w).2.2).2.2.content db.filePath = some data)
        ∧ (((db.clearTwice w).2.1.sync (db.clearTwice w).2.2).1 = .ok () →
            ∃ data, db.options.stringify (.obj []) db.options.jsonSpaces = .ok data
              ∧ ((db.clearTwice w).2.1.sync (db.clearTwice w).2.2).2.2.content db.filePath
                  = some data)
        ∧ (∀ data, db.options.stringify (.obj []) db.options.jsonSpaces = .ok data →
            w.accepts db.filePath = true →
            ((db.clear w).2.1.sync (db.clear w).2.2).1 = .ok ()
            ∧ ((db.clearTwice w).2.1.sync (db.clearTwice w).2.2).1 = .ok ())) := by
  have hinst : (db.clear w).2.1 = NativeDB.mk db.filePath db.options (.obj []) :=
    clear_instance db w
  have htwice : db.clearTwice w
      = (NativeDB.mk db.filePath db.options (.obj [])).clear (db.clear w).2.2 := by
    unfold NativeDB.clearTwice
    rw [hinst]
  have hinst2 : (db.clearTwice w).2.1 = NativeDB.mk db.filePath db.options (.obj []) := by
    rw [htwice]
    exact clear_instance _ _
  have hsame : (db.clearTwice w).1 = (db.clear w).1
      ∧ (db.clearTwice w).2.2.node = (db.clear w).2.2.node
      ∧ (db.options.asyncWrite = false → (db.clearTwice w).2.2 = (db.clear w).2.2) := by
    rw [htwice]
    cases hs : db.options.syncOnWrite with
    | false => simp [clear_eq, hs]
    | true =>
      have h := sync_twice (NativeDB.mk db.filePath db.options (.obj [])) w
      rw [sync_options_storage] at h
      simp only [clear_eq, hs, if_true]
      exact h
  refine ⟨by rw [hinst], by rw [hinst2], by rw [hinst, hinst2], hsame.1, hsame.2.1, ?_⟩
  intro hmode
  have hafter : ((db.clear w).2.1.sync (db.clear w).2.2).1 = .ok () →
      ∃ data, db.options.stringify (.obj []) db.options.jsonSpaces = .ok data
        ∧ ((db.clear w).2.1.sync (db.clear w).2.2).2.2.content db.filePath = some data := by
    rw [hinst]
    intro h
    exact sync_ok_content (NativeDB.mk db.filePath db.options (.obj [])) _ hmode h
  have hworld := hsame.2.2 hmode
  refine ⟨hworld, hafter, ?_, ?_⟩
  · rw [hinst2, hworld, ← hinst]
    exact hafter
  · intro data henc hacc
    have hfirst : ((db.clear w).2.1.sync (db.clear w).2.2).1 = .ok () := by
      rw [hinst]
      cases hs : db.options.syncOnWrite with
      | false =>
        simp only [clear_eq, hs]
        obtain ⟨w1, h1, _, _⟩ := sync_accepted (NativeDB.mk db.filePath db.options (.obj []))
          w data hmode henc hacc
        simp [h1]
      | true =>
        simp only [clear_eq, hs, if_true]
        obtain ⟨w1, h1, _, hacc1⟩ := sync_accepted
          (NativeDB.mk db.filePath db.options (.obj [])) w data hmode henc hacc
        obtain ⟨w2, h2, _, _⟩ := sync_accepted
          (NativeDB.mk db.filePath db.options (.obj [])) w1 data hmode henc hacc1
        simp [h1, h2]
    refine ⟨hfirst, ?_⟩
    rw [hinst2, hworld, ← hinst]
    exact hfirst

/-- C12, at a concrete input: a store holding `a: 1` with `syncOnWrite` off,
over a file that holds the text `old`; after `clear()` and after
`clear(); clear()` a `sync()` leaves the file holding the encoding of the
empty mapping. -/
theorem C12_idempotent_clear_witness :
    (storeOf (.obj [("a", .num 1)]) false false 4).options.asyncWrite = false
    ∧ (worldWith "db.json" "old").accepts "db.json" = true
    ∧ (((storeOf (.obj [("a", .num 1)]) false false 4).clearTwice
          (worldWith "db.json" "old")).2.1.sync
        ((storeOf (.obj [("a", .num 1)]) false false 4).clearTwice
          (worldWith "db.json" "old")).2.2).1 = .ok ()
    ∧ (((storeOf (.obj [("a", .num 1)]) false false 4).clearTwice
          (worldWith "db.json" "old")).2.1.sync
        ((storeOf (.obj [("a", .num 1)]) false false 4).clearTwice
          (worldWith "db.json" "old")).2.2).2.2.content "db.json" = some "\x7b\x7d" :=
  ⟨rfl, by decide,
    (((C12_idempotent_clear (storeOf (.obj [("a", .num 1)]) false false 4)
      (worldWith "db.json" "old")).2.2.2.2.2 rfl).2.2.2 "\x7b\x7d" rfl (by decide)).2,
    by decide⟩

/-- C13 (load postcondition): for a path that holds a file the process may read
and write, when the file has non-zero size and the decoder accepts its content
the constructor returns a store whose table is the decoded value; when the
file has zero size the constructor returns a store with the empty table
whatever the decoder is, so also for a decoder that rejects the empty text.
In both cases the world is left as it was. -/
theorem C13_load_postcondition (JSON : JSONGlobal) (path : String) (options : Option OptionsArg)
    (w : World) (content : String) (hpath : path ≠ "")
    (hfile : w.node path = .file content true true) :
    (∀ v, 0 < content.utf8ByteSize → (resolveOptions JSON options).parse content = .ok v →
      NativeDB.constructor JSON (some path) options w
        = (.ok (NativeDB.mk path (resolveOptions JSON options) v), w))
    ∧ (content.utf8ByteSize = 0 →
      NativeDB.constructor JSON (some path) options w
        = (.ok (NativeDB.mk path (resolveOptions JSON options) (.obj [])), w)) := by
  constructor
  · intro v hsize hdecode
    rw [constructor_of_load JSON path options w hpath,
      load_decoded (NativeDB.mk path (resolveOptions JSON options) (.obj [])) w content v hfile
        hsize hdecode]
  · intro hzero
    have hempty : content = "" := by
      by_contra hne
      have := utf8ByteSize_pos_of_ne_empty content hne
      omega
    subst hempty
    rw [constructor_of_load JSON path options w hpath,
      load_empty_file (NativeDB.mk path (resolveOptions JSON options) (.obj [])) w hfile]

/-- C13, at concrete inputs: the file `db.json` holding the encoding of the
table with `a: 1`, and the empty file `db.json` with the example decoder, which
rejects the empty text. -/
theorem C13_load_postcondition_witness :
    ("db.json" ≠ "" ∧ 0 < (encodeA1 4).utf8ByteSize
      ∧ demoParse (encodeA1 4) = .ok (.obj [("a", .num 1)])
      ∧ NativeDB.constructor demoJSON (some "db.json") none (worldWith "db.json" (encodeA1 4))
        = (.ok (NativeDB.mk "db.json" (resolveOptions demoJSON none) (.obj [("a", .num 1)])),
            worldWith "db.json" (encodeA1 4)))
    ∧ ("".utf8ByteSize = 0
      ∧ thrown (demoParse "")
          = some ⟨"SyntaxError", "Unexpected token in JSON at position 0", none⟩
      ∧ NativeDB.constructor demoJSON (some "db.json") none (worldWith "db.json" "")
        = (.ok (NativeDB.mk "db.json" (resolveOptions demoJSON none) (.obj [])),
            worldWith "db.json" "")) :=
  ⟨⟨by decide, by decide, rfl,
    (C13_load_postcondition demoJSON "db.json" none (worldWith "db.json" (encodeA1 4))
      (encodeA1 4) (by decide) rfl).1 (.obj [("a", .num 1)]) (by decide) rfl⟩,
   ⟨by decide, by decide,
    (C13_load_postcondition demoJSON "db.json" none (worldWith "db.json" "") ""
      (by decide) rfl).2 (by decide)⟩⟩

/-- C14 (synchronous sync failure): with `asyncWrite` off, `sync()` throws the
error of the encoder whenever the encoder fails on the current table, leaving
the world as it was; when the encoder succeeds it throws the error of the file
write whenever the write fails, and returns normally otherwise.  With
`syncOnWrite` on, a `set`, `remove` or `clear` that reaches its sync completes
exactly as that sync does, so that the failure reaches the caller of the
mutation. -/
theorem C14_synchronous_sync_failure (db : NativeDB) (w : World)
    (hmode : db.options.asyncWrite = false) :
    (∀ e, db.encoded = .error e → db.sync w = (.error e, db, w))
    ∧ (∀ data e, db.encoded = .ok data → (writeFileSync w db.filePath data).1 = .error e →
        (db.sync w).1 = .error e)
    ∧ (∀ data, db.encoded = .ok data → (writeFileSync w db.filePath data).1 = .ok () →
        (db.sync w).1 = .ok ())
    ∧ (db.options.syncOnWrite = true →
        (∀ key value s, setProp db.storage key value = .ok s →
          (db.set key value w).1 = ((NativeDB.mk db.filePath db.options s).sync w).1)
        ∧ (∀ keys s, deleteEach db.storage keys = (.ok (), s) →
          (db.remove keys w).1 = ((NativeDB.mk db.filePath db.options s).sync w).1)
        ∧ (db.clear w).1 = ((NativeDB.mk db.filePath db.options (.obj [])).sync w).1) := by
  refine ⟨?_, ?_, ?_, ?_⟩
  · intro e he
    rw [sync_synchronous db w hmode, he]
  · intro data e he hw
    rw [sync_synchronous db w hmode, he]
    exact hw
  · intro data he hw
    rw [sync_synchronous db w hmode, he]
    exact hw
  · intro hs
    refine ⟨?_, ?_, ?_⟩
    · intro key value s h
      unfold NativeDB.set
      simp only [h, hs, if_true]
    · intro keys s h
      unfold NativeDB.remove
      simp only [h, hs, if_true]
    · unfold NativeDB.clear
      simp only [hs, if_true]

/-- C14, at concrete inputs: a synchronous `sync()` of a table the example
encoder rejects, one of the empty table in a world in which every write
fails, one of the empty table in a world that accepts the write, and a `set`
with `syncOnWrite` on in the world in which every write fails. -/
theorem C14_synchronous_sync_failure_witness :
    (storeOf (.obj []) false true 4).options.asyncWrite = false
    ∧ thrown ((storeOf (.obj [("b", .null)]) false true 4).sync emptyWorld).1
        = some (typeError "Converting circular structure to JSON")
    ∧ thrown ((storeOf (.obj []) false true 4).sync faultyWorld).1
        = some (fsError "ENOENT" "no such file or directory" "open" "db.json")
    ∧ ((storeOf (.obj []) false true 4).sync emptyWorld).1 = .ok ()
    ∧ thrown ((storeOf (.obj []) false true 4).set "a" (.num 1) faultyWorld).1
        = some (fsError "ENOENT" "no such file or directory" "open" "db.json") :=
  ⟨rfl, by decide,
    congrArg thrown ((C14_synchronous_sync_failure (storeOf (.obj []) false true 4) faultyWorld
      rfl).2.1 "\x7b\x7d" (fsError "ENOENT" "no such file or directory" "open" "db.json")
      rfl rfl),
    (C14_synchronous_sync_failure (storeOf (.obj []) false true 4) emptyWorld rfl).2.2.1
      "\x7b\x7d" rfl rfl,
    by decide⟩

/-- C15 (invalid path): for the empty path and for a path argument left out, the
constructor throws the missing-path error whatever the options and the world
are, and leaves the world as it was; for a non-empty path it never throws that
error, however the probe and the load end. -/
theorem C15_invalid_path (JSON : JSONGlobal) (options : Option OptionsArg) (w : World) :
    NativeDB.constructor JSON (some "") options w
      = (.error (newError "Missing file path argument."), w)
    ∧ NativeDB.constructor JSON none options w
      = (.error (newError "Missing file path argument."), w)
    ∧ (∀ path, path ≠ "" →
        thrown (NativeDB.constructor JSON (some path) options w).1
          ≠ some (newError "Missing file path argument.")) := by
  refine ⟨rfl, rfl, ?_⟩
  intro path hpath
  rw [constructor_of_load JSON path options w hpath]
  cases hl : (NativeDB.mk path (resolveOptions JSON options) (.obj [])).load w with
  | mk r rest =>
    obtain ⟨db1, w1⟩ := rest
    cases r with
    | ok u => simp [thrown]
    | error e =>
      simp only
      by_cases h1 : e.code = some "ENOENT"
      · rw [if_pos h1]
        simp [thrown]
      · rw [if_neg h1]
        by_cases h2 : e.code = some "EACCES"
        · rw [if_pos h2]
          simp only [thrown, ne_eq, Option.some.injEq]
          exact denied_error_ne_missing path
        · rw [if_neg h2]
          simp only [thrown, ne_eq, Option.some.injEq]
          exact probe_error_ne_missing path e.toString

/-- C15, at concrete inputs: the empty path over a world in which `db.json`
exists, and the path `db.json` over a file that cannot be read, where the
constructor throws the access error. -/
theorem C15_invalid_path_witness :
    "db.json" ≠ ""
    ∧ thrown (NativeDB.constructor demoJSON (some "") none (worldWith "db.json" "null")).1
        = some (newError "Missing file path argument.")
    ∧ thrown (NativeDB.constructor demoJSON (some "db.json") none
        (emptyWorld.put "db.json" (.file "null" false true))).1
        = some (newError "Cannot access path \"db.json\".")
    ∧ thrown (NativeDB.constructor demoJSON (some "db.json") none
        (emptyWorld.put "db.json" (.file "null" false true))).1
        ≠ some (newError "Missing file path argument.") :=
  ⟨by decide, by decide, by decide,
    (C15_invalid_path demoJSON none (emptyWorld.put "db.json" (.file "null" false true))).2.2
      "db.json" (by decide)⟩

/-- C16 (option defaults): with no options supplied the effective options are
the defaults, `asyncWrite` off, `syncOnWrite` on, four spaces, and the `JSON`
encoder and decoder of the platform; with options supplied each field is the
supplied value when there is one and the default otherwise, so that a field
depends on no other supplied field; and the options of a store the
constructor returns are these effective options. -/
theorem C16_option_defaults (JSON : JSONGlobal) :
    resolveOptions JSON none = Options.mk false true 4 JSON.stringify JSON.parse
    ∧ (∀ o : OptionsArg,
        (resolveOptions JSON (some o)).asyncWrite = o.asyncWrite.getD false
        ∧ (resolveOptions JSON (some o)).syncOnWrite = o.syncOnWrite.getD true
        ∧ (resolveOptions JSON (some o)).jsonSpaces = o.jsonSpaces.getD 4
        ∧ (resolveOptions JSON (some o)).stringify = o.stringify.getD JSON.stringify
        ∧ (resolveOptions JSON (some o)).parse = o.parse.getD JSON.parse)
    ∧ (∀ path options w db w1, NativeDB.constructor JSON path options w = (.ok db, w1) →
        db.options = resolveOptions JSON options) := by
  refine ⟨rfl, ?_, ?_⟩
  · intro o
    exact ⟨rfl, rfl, rfl, rfl, rfl⟩
  · intro path options w db w1 h
    exact constructor_options JSON path options w w1 db h

/-- C16, at the scenario of the specification: the options with `syncOnWrite`
on and two spaces, everything else left out. -/
theorem C16_option_defaults_witness :
    (resolveOptions demoJSON (some ⟨none, some true, some 2, none, none⟩)).asyncWrite = false
    ∧ (resolveOptions demoJSON (some ⟨none, some true, some 2, none, none⟩)).syncOnWrite = true
    ∧ (resolveOptions demoJSON (some ⟨none, some true, some 2, none, none⟩)).jsonSpaces = 2
    ∧ (resolveOptions demoJSON (some ⟨none, some true, some 2, none, none⟩)).stringify
        = demoStringify
    ∧ (resolveOptions demoJSON (some ⟨none, some true, some 2, none, none⟩)).parse = demoParse
    ∧ (NativeDB.mk "db.json" (resolveOptions demoJSON (some manualSync)) (.obj [])).options
        = resolveOptions demoJSON (some manualSync) :=
  ⟨((C16_option_defaults demoJSON).2.1 ⟨none, some true, some 2, none, none⟩).1,
   ((C16_option_defaults demoJSON).2.1 ⟨none, some true, some 2, none, none⟩).2.1,
   ((C16_option_defaults demoJSON).2.1 ⟨none, some true, some 2, none, none⟩).2.2.1,
   ((C16_option_defaults demoJSON).2.1 ⟨none, some true, some 2, none, none⟩).2.2.2.1,
   ((C16_option_defaults demoJSON).2.1 ⟨none, some true, some 2, none, none⟩).2.2.2.2,
   (C16_option_defaults demoJSON).2.2 (some "db.json") (some manualSync) emptyWorld _ emptyWorld
     (constructor_missing demoJSON "db.json" (some manualSync) emptyWorld (by decide) rfl)⟩

/-- C17 (access denied): for a non-empty path that holds a file the process may
not both read and write, the constructor throws the access error naming the
path, whatever the content of the file and the decoder are, and leaves the
world as it was; that error is neither the one thrown for other probe failures
nor the missing-path error.  For a path whose probe fails with an error whose
code is neither `ENOENT` nor `EACCES`, the constructor throws the probe error
carrying the path and the text of the failure. -/
theorem C17_access_denied (JSON : JSONGlobal) (path : String) (options : Option OptionsArg)
    (w : World) (hpath : path ≠ "") :
    (∀ content r wr, w.node path = .file content r wr → (r && wr) = false →
      NativeDB.constructor JSON (some path) options w
        = (.error (newError ("Cannot access path \"" ++ path ++ "\".")), w)
      ∧ (∀ text, newError ("Cannot access path \"" ++ path ++ "\".")
          ≠ newError ("Error while checking for existence of path \"" ++ path ++ "\": " ++ text))
      ∧ newError ("Cannot access path \"" ++ path ++ "\".")
          ≠ newError "Missing file path argument.")
    ∧ (∀ e, w.node path = .broken e → e.code ≠ some "ENOENT" → e.code ≠ some "EACCES" →
      NativeDB.constructor JSON (some path) options w
        = (.error (newError ("Error while checking for existence of path \"" ++ path ++ "\": "
            ++ e.toString)), w)) := by
  constructor
  · intro content r wr hfile hperm
    refine ⟨?_, ?_, denied_error_ne_missing path⟩
    · rw [constructor_of_load JSON path options w hpath,
        load_denied (NativeDB.mk path (resolveOptions JSON options) (.obj [])) w content r wr
          hfile hperm]
      simp [fsError]
    · intro text h
      exact probe_error_ne_denied path text h.symm
  · intro e hnode h1 h2
    rw [constructor_of_load JSON path options w hpath,
      load_broken (NativeDB.mk path (resolveOptions JSON options) (.obj [])) w e hnode]
    simp [h1, h2]

/-- C17, at concrete inputs: `db.json` holding valid content the process may
read but not write, and `db.json` whose probe fails with `EIO`. -/
theorem C17_access_denied_witness :
    "db.json" ≠ ""
    ∧ thrown (NativeDB.constructor demoJSON (some "db.json") none
        (emptyWorld.put "db.json" (.file "null" true false))).1
        = some (newError "Cannot access path \"db.json\".")
    ∧ thrown (NativeDB.constructor demoJSON (some "db.json") none
        (emptyWorld.put "db.json" (.broken (fsError "EIO" "i/o error" "stat" "db.json")))).1
        = some (newError ("Error while checking for existence of path \"db.json\": "
            ++ "Error: EIO: i/o error, stat \x27db.json\x27")) :=
  ⟨by decide,
    congrArg (fun r => thrown r.1)
      ((C17_access_denied demoJSON "db.json" none
        (emptyWorld.put "db.json" (.file "null" true false)) (by decide)).1
        "null" true false rfl rfl).1,
    congrArg (fun r => thrown r.1)
      ((C17_access_denied demoJSON "db.json" none
        (emptyWorld.put "db.json" (.broken (fsError "EIO" "i/o error" "stat" "db.json")))
        (by decide)).2 (fsError "EIO" "i/o error" "stat" "db.json") rfl (by decide) (by decide))⟩

/-- C19 (no rollback on failed write-through): with `syncOnWrite` on and
`asyncWrite` off, on a table that is a mapping, when the encoder fails on the
table a `set`, `remove` or `clear` leaves, the call throws the error of the
encoder, the instance keeps the mutated table (a key other than `__proto__`
that was set holds the new value, the removed keys are absent, the cleared
table is empty) and the world is left as it was, so that the file keeps the
content it had. -/
theorem C19_no_rollback (db : NativeDB) (ps : Props) (w : World) (e : JSError)
    (htable : db.storage = .obj ps) (hsync : db.options.syncOnWrite = true)
    (hmode : db.options.asyncWrite = false) :
    (∀ key value,
      db.options.stringify (Props.set ps key value) db.options.jsonSpaces = .error e →
      db.set key value w
        = (.error e, NativeDB.mk db.filePath db.options (Props.set ps key value), w)
      ∧ (key ≠ "__proto__" → Props.set ps key value = .obj (Props.assign key value ps))
      ∧ Props.lookup key (Props.assign key value ps) = some value)
    ∧ (∀ keys,
      db.options.stringify (.obj (Props.eraseAll ps keys)) db.options.jsonSpaces = .error e →
      db.remove keys w
        = (.error e, NativeDB.mk db.filePath db.options (.obj (Props.eraseAll ps keys)), w)
      ∧ (∀ k, k ∈ keys → Props.lookup k (Props.eraseAll ps keys) = none))
    ∧ (db.options.stringify (.obj []) db.options.jsonSpaces = .error e →
      db.clear w = (.error e, NativeDB.mk db.filePath db.options (.obj []), w)) := by
  have hfail : ∀ t : JSValue, db.options.stringify t db.options.jsonSpaces = .error e →
      (NativeDB.mk db.filePath db.options t).sync w
        = (.error e, NativeDB.mk db.filePath db.options t, w) := by
    intro t ht
    rw [sync_synchronous (NativeDB.mk db.filePath db.options t) w hmode]
    simp only [NativeDB.encoded, ht]
  refine ⟨?_, ?_, ?_⟩
  · intro key value henc
    refine ⟨?_, Props.set_of_ne_proto ps key value, Props.lookup_assign_self key value ps⟩
    unfold NativeDB.set
    rw [htable]
    simp only [setProp, hsync, if_true]
    exact hfail _ henc
  · intro keys henc
    constructor
    · unfold NativeDB.remove
      rw [htable, deleteEach_obj]
      simp only [hsync, if_true]
      exact hfail _ henc
    · intro k hk
      rw [Props.eraseAll_eq_filter, Props.lookup_filter_keys]
      simp [hk]
  · intro henc
    unfold NativeDB.clear
    simp only [hsync, if_true]
    exact hfail _ henc

/-- C19, at a concrete input: over a file holding the encoding of the empty
table, `set("b", null)` on the empty table with the example encoder, which
rejects the table holding `b: null`. -/
theorem C19_no_rollback_witness :
    (storeOf (.obj []) false true 4).options.syncOnWrite = true
    ∧ (storeOf (.obj []) false true 4).options.asyncWrite = false
    ∧ thrown ((storeOf (.obj []) false true 4).set "b" .null
        (worldWith "db.json" "\x7b\x7d")).1
        = some (typeError "Converting circular structure to JSON")
    ∧ ((storeOf (.obj []) false true 4).set "b" .null
        (worldWith "db.json" "\x7b\x7d")).2.1.storage = .obj [("b", .null)]
    ∧ ((storeOf (.obj []) false true 4).set "b" .null
        (worldWith "db.json" "\x7b\x7d")).2.2.content "db.json" = some "\x7b\x7d" :=
  ⟨rfl, rfl,
    congrArg (fun r => thrown r.1)
      ((C19_no_rollback (storeOf (.obj []) false true 4) [] (worldWith "db.json" "\x7b\x7d")
        (typeError "Converting circular structure to JSON") rfl rfl rfl).1 "b" .null rfl).1,
    congrArg (fun r => r.2.1.storage)
      ((C19_no_rollback (storeOf (.obj []) false true 4) [] (worldWith "db.json" "\x7b\x7d")
        (typeError "Converting circular structure to JSON") rfl rfl rfl).1 "b" .null rfl).1,
    congrArg (fun r => r.2.2.content "db.json")
      ((C19_no_rollback (storeOf (.obj []) false true 4) [] (worldWith "db.json" "\x7b\x7d")
        (typeError "Converting circular structure to JSON") rfl rfl rfl).1 "b" .null rfl).1⟩

/-- C20 (decode failure dispatched on its code): for a non-empty path holding
a file of non-zero size, readable and writable, whose content the decoder
rejects, when the code of the decoder error is `ENOENT` the constructor
returns a store with the empty table, and when it is `EACCES` the constructor
throws the access error naming the path; in both cases the file system is
left as it was and the console has the line of `validateJSON`. -/
theorem C20_decode_error_code (JSON : JSONGlobal) (path : String) (options : Option OptionsArg)
    (w : World) (content : String) (e : JSError) (hpath : path ≠ "")
    (hfile : w.node path = .file content true true) (hsize : 0 < content.utf8ByteSize)
    (hdecode : (resolveOptions JSON options).parse content = .error e) :
    (e.code = some "ENOENT" →
      NativeDB.constructor JSON (some path) options w
        = (.ok (NativeDB.mk path (resolveOptions JSON options) (.obj [])),
            { w with console := w.console ++
              ["Given filePath is not empty and its content is not valid JSON."] }))
    ∧ (e.code = some "EACCES" →
      NativeDB.constructor JSON (some path) options w
        = (.error (newError ("Cannot access path \"" ++ path ++ "\".")),
            { w with console := w.console ++
              ["Given filePath is not empty and its content is not valid JSON."] })) := by
  have hload := load_decode_error (NativeDB.mk path (resolveOptions JSON options) (.obj [])) w
    content e hfile hsize hdecode
  constructor
  · intro hcode
    rw [constructor_of_load JSON path options w hpath, hload]
    simp only [hcode, if_true]
  · intro hcode
    rw [constructor_of_load JSON path options w hpath, hload]
    have hne : ¬ e.code = some "ENOENT" := by
      rw [hcode]
      decide
    simp only
    rw [if_neg hne, if_pos hcode]

/-- C20, at concrete inputs: `db.json` holds the text `not json`, and the
decoder rejects it with an error coded `ENOENT`, then with one coded
`EACCES`. -/
theorem C20_decode_error_code_witness :
    "db.json" ≠ "" ∧ 0 < "not json".utf8ByteSize
    ∧ (∃ db w1, NativeDB.constructor demoJSON (some "db.json")
        (some (withParse (failingParse
          (fsError "ENOENT" "no such file or directory" "open" "schema.json"))))
        (worldWith "db.json" "not json") = (.ok db, w1)
        ∧ db.storage = .obj [] ∧ w1.content "db.json" = some "not json")
    ∧ thrown (NativeDB.constructor demoJSON (some "db.json")
        (some (withParse (failingParse
          (fsError "EACCES" "permission denied" "open" "schema.json"))))
        (worldWith "db.json" "not json")).1
        = some (newError "Cannot access path \"db.json\".") :=
  ⟨by decide, by decide,
    ⟨_, _,
      (C20_decode_error_code demoJSON "db.json"
        (some (withParse (failingParse
          (fsError "ENOENT" "no such file or directory" "open" "schema.json"))))
        (worldWith "db.json" "not json") "not json"
        (fsError "ENOENT" "no such file or directory" "open" "schema.json")
        (by decide) rfl (by decide) rfl).1 rfl,
      rfl, rfl⟩,
    congrArg (fun r => thrown r.1)
      ((C20_decode_error_code demoJSON "db.json"
        (some (withParse (failingParse
          (fsError "EACCES" "permission denied" "open" "schema.json"))))
        (worldWith "db.json" "not json") "not json"
        (fsError "EACCES" "permission denied" "open" "schema.json")
        (by decide) rfl (by decide) rfl).2 rfl)⟩
